import Mathlib

/-!
Verification of the portal-to-m3u converter (Stalker portal → M3U playlist).

The development shallowly embeds the Deno edge function
`supabase/functions/stalker-converter/index.ts` (and the variant edge
function in the repository) into Lean.  HTTP traffic is abstracted by
response oracles (`Resp`); dynamic JavaScript values are modelled by the
inductive type `JsVal`, with JS truthiness, property access (including the
TypeError raised by property access on null/undefined) and the
`a || b` defaulting idiom made explicit.  Fallible functions return
`Except String _`, the error carrying the thrown message.
-/

/-- A JavaScript runtime value, as produced by `response.json()`.
`undefined` is JavaScript `undefined` (the result of reading an absent
property); numbers are modelled as integers (no claim depends on float
behaviour). -/
inductive JsVal where
  | undefined : JsVal
  | null : JsVal
  | bool : Bool → JsVal
  | num : Int → JsVal
  | str : String → JsVal
  | arr : List JsVal → JsVal
  | obj : List (String × JsVal) → JsVal

/-- JS truthiness: `undefined`, `null`, `false`, `0` and `""` are falsy;
every other value (including empty arrays and objects) is truthy. -/
def truthy : JsVal → Bool
  | .undefined => false
  | .null => false
  | .bool b => b
  | .num n => n != 0
  | .str s => s != ""
  | .arr _ => true
  | .obj _ => true

/-- A value is nullish (`null` or `undefined`): property access on it throws. -/
def isNullish : JsVal → Bool
  | .undefined => true
  | .null => true
  | _ => false

/-- Property lookup on a non-nullish value: objects yield the field value or
`undefined`; primitives and arrays yield `undefined` for the property names
used by this program. -/
def getPropNN (v : JsVal) (k : String) : JsVal :=
  match v with
  | .obj fields =>
    match fields.lookup k with
    | some w => w
    | none => .undefined
  | _ => .undefined

/-- Property access `v.k` with JS semantics: throws a TypeError when `v` is
nullish, otherwise behaves like `getPropNN`. -/
def getProp (v : JsVal) (k : String) : Except String JsVal :=
  if isNullish v then .error ("TypeError: cannot read properties of null or undefined (reading " ++ k ++ ")")
  else .ok (getPropNN v k)

/-- The JS defaulting idiom `a || b`. -/
def jsOr (a b : JsVal) : JsVal := if truthy a then a else b

/-- An HTTP response as seen through `fetch`: `ok` is `response.ok`
(2xx status), `statusText` feeds the thrown error messages, and `body` is
the result of `response.json()` — `none` models a body that is not valid
JSON, on which `response.json()` throws a SyntaxError. -/
structure Resp where
  ok : Bool
  statusText : String
  body : Option JsVal

/-- The error message thrown by `response.json()` on a malformed body. -/
def jsonParseErr : String := "SyntaxError: unexpected token in JSON"

/-- The two VOD content kinds handled by the converter. -/
inductive Kind where
  | movies : Kind
  | series : Kind
deriving DecidableEq, Repr

/-- The group-label prefix for a kind (`'Movies'` / `'Series'`). -/
def kindLabel : Kind → String
  | .movies => "Movies"
  | .series => "Series"

/-- JS `String.prototype.startsWith`, modelled on the character list. -/
def jsStartsWith (s p : String) : Bool := p.data.isPrefixOf s.data

/-- Dropping the first `n` characters of a string. -/
def jsDrop (s : String) (n : Nat) : String := String.mk (s.data.drop n)

/-- ASCII uppercasing of one character, modelling
`String.prototype.toUpperCase` on the ASCII range (the program applies it
to MAC-address input; the model is exact on ASCII). -/
def jsUpper (c : Char) : Char :=
  if 97 ≤ c.toNat ∧ c.toNat ≤ 122 then Char.ofNat (c.toNat - 32) else c

/-- The characters removed by `.replace(/[:-]/g, '')`. -/
def isSep (c : Char) : Bool := c = ':' || c = '-'

/-- Strip MAC separators, modelling `.replace(/[:-]/g, '')`. -/
def stripSep (l : List Char) : List Char := l.filter (fun c => !(isSep c))

/-- ECMAScript line terminators, which the regexp `.` does not match. -/
def lineTerm (c : Char) : Bool :=
  c = '\n' || c = '\r' || c = ' ' || c = ' '

/-- The global match `cleanMac.match(/.{1,2}/g)`: scanning left to right,
line terminators never match `.` and are skipped; at a matching position the
greedy `{1,2}` takes two characters when the next character also matches
`.`, else one. -/
def chunkMatch : List Char → List (List Char)
  | [] => []
  | c :: rest =>
    if lineTerm c then chunkMatch rest
    else
      match rest with
      | [] => [[c]]
      | d :: rest' =>
        if lineTerm d then [c] :: chunkMatch rest'
        else [c, d] :: chunkMatch rest'

/-- `Array.prototype.join(':')` on the list of matched groups. -/
def joinColon : List (List Char) → List Char
  | [] => []
  | [g] => g
  | g :: rest => g ++ ':' :: joinColon rest

/-- MAC normalization (index.ts lines 55–56):
`macAddress.toUpperCase().replace(/[:-]/g,'')` re-grouped by
`.match(/.{1,2}/g)?.join(':') || macAddress`.  When the match produces no
group (`match` returns `null`), the original input is passed through. -/
def formattedMac (macAddress : String) : String :=
  match chunkMatch (stripSep (macAddress.data.map jsUpper)) with
  | [] => macAddress
  | g :: rest => String.mk (joinColon (g :: rest))

/-- Uppercase hexadecimal digit. -/
def isUpperHex (c : Char) : Bool :=
  (48 ≤ c.toNat && c.toNat ≤ 57) || (65 ≤ c.toNat && c.toNat ≤ 70)

/-- Any hexadecimal digit. -/
def isHexDigit (c : Char) : Bool :=
  (48 ≤ c.toNat && c.toNat ≤ 57) || (65 ≤ c.toNat && c.toNat ≤ 70) ||
    (97 ≤ c.toNat && c.toNat ≤ 102)

/-- Split a character list at colons (used to state the canonical MAC shape). -/
def splitColon : List Char → List (List Char)
  | [] => [[]]
  | c :: rest =>
    if c = ':' then [] :: splitColon rest
    else
      match splitColon rest with
      | [] => [[c]]
      | l :: ls => (c :: l) :: ls

/-- The canonical device-identity shape claimed by the spec: exactly 6
groups of 2 uppercase hex digits joined by colons. -/
def isCanonicalMac (s : String) : Bool :=
  (splitColon s.data).length = 6 &&
    (splitColon s.data).all (fun g => g.length = 2 && g.all isUpperHex)

mutual
/-- Stringification of a JS value inside a template literal.  Arrays
stringify as the comma-join of their elements with nullish elements blank;
plain objects as "[object Object]". -/
def jsTemplate : JsVal → String
  | .undefined => "undefined"
  | .null => "null"
  | .bool b => if b then "true" else "false"
  | .num n => toString n
  | .str s => s
  | .arr l => jsJoinElems l
  | .obj _ => "[object Object]"

def jsJoinElems : List JsVal → String
  | [] => ""
  | [v] => jsElemStr v
  | v :: w :: rest => jsElemStr v ++ "," ++ jsJoinElems (w :: rest)

def jsElemStr : JsVal → String
  | .null => ""
  | .undefined => ""
  | v => jsTemplate v
end

/-- The handshake (index.ts lines 103–119): throws `Handshake failed` on a
non-2xx status; otherwise parses the body (a malformed body raises a
SyntaxError from `response.json()`); returns `data.js.token` when
`data.js && data.js.token` is truthy, else throws the missing-token error.
Accessing `.js` on a nullish body value raises a TypeError. -/
def handshake (r : Resp) : Except String JsVal :=
  if !r.ok then .error ("Handshake failed: " ++ r.statusText)
  else
    match r.body with
    | none => .error jsonParseErr
    | some d =>
      match getProp d "js" with
      | .error e => .error e
      | .ok js =>
        if truthy js then
          let tok := getPropNN js "token"
          if truthy tok then .ok tok
          else .error "Failed to get token from handshake"
        else .error "Failed to get token from handshake"

/-- Channel listing (index.ts lines 121–136): throws
`Failed to get channels` on non-2xx, otherwise returns the parsed body
(malformed body → SyntaxError). -/
def getChannelsRaw (r : Resp) : Except String JsVal :=
  if !r.ok then .error ("Failed to get channels: " ++ r.statusText)
  else
    match r.body with
    | none => .error jsonParseErr
    | some d => .ok d

/-- A parsed channel record; fields keep their raw JS values so that the
JS defaulting (`|| ''` etc.) is modelled exactly.  `group` is always the
literal string `'Live TV'`. -/
structure ChannelJ where
  id : JsVal
  name : JsVal
  cmd : JsVal
  logo : JsVal
  number : JsVal
  group : JsVal

/-- One record of `parseChannels`' map callback (index.ts lines 139–146).
Property access on a nullish record element throws. -/
def chanOf (channel : JsVal) : Except String ChannelJ :=
  if isNullish channel then
    .error "TypeError: cannot read properties of null or undefined (reading id)"
  else
    .ok ⟨jsOr (getPropNN channel "id") (.str ""),
         jsOr (getPropNN channel "name") (.str "Unknown Channel"),
         jsOr (getPropNN channel "cmd") (.str ""),
         jsOr (getPropNN channel "logo") (.str ""),
         jsOr (getPropNN channel "number") (jsOr (getPropNN channel "id") (.str "")),
         .str "Live TV"⟩

/-- The left-to-right map of `chanOf` over the raw records, propagating
the first thrown TypeError as JS `Array.prototype.map` does. -/
def chansOf : List JsVal → Except String (List ChannelJ)
  | [] => .ok []
  | x :: rest =>
    match chanOf x with
    | .error e => .error e
    | .ok c =>
      match chansOf rest with
      | .error e => .error e
      | .ok cs => .ok (c :: cs)

/-- `parseChannels` (index.ts lines 138–147): `data.js?.data?.map(...) || []`.
Accessing `.js` on a nullish input throws; a nullish `js` or `js.data`
short-circuits to `undefined`, which `|| []` turns into the empty list;
calling `.map` on a non-array, non-nullish `js.data` throws a TypeError. -/
def parseChannels (data : JsVal) : Except String (List ChannelJ) :=
  match getProp data "js" with
  | .error e => .error e
  | .ok js =>
    if isNullish js then .ok []
    else
      match getPropNN js "data" with
      | .undefined => .ok []
      | .null => .ok []
      | .arr l => chansOf l
      | _ => .error "TypeError: data.js.data.map is not a function"

/-- Stream-link resolution `getStreamLink` (index.ts lines 214–232): returns
the empty string on a non-2xx status; otherwise parses the body (malformed
body → SyntaxError propagates to the caller) and returns `data.js?.cmd || ''`
(a nullish parsed body makes `.js` throw). -/
def getStreamLink (r : Resp) : Except String JsVal :=
  if !r.ok then .ok (.str "")
  else
    match r.body with
    | none => .error jsonParseErr
    | some d =>
      match getProp d "js" with
      | .error e => .error e
      | .ok js =>
        let cmdv := if isNullish js then JsVal.undefined else getPropNN js "cmd"
        .ok (jsOr cmdv (.str ""))

/-- A parsed VOD category; raw JS field values, defaulted as in the source. -/
structure CategoryJ where
  id : JsVal
  name : JsVal

/-- One record of `getVODCategories`' map callback (index.ts lines 208–211). -/
def catOf (cat : JsVal) : Except String CategoryJ :=
  if isNullish cat then
    .error "TypeError: cannot read properties of null or undefined (reading id)"
  else
    .ok ⟨jsOr (getPropNN cat "id") (.str ""),
         jsOr (getPropNN cat "title") (jsOr (getPropNN cat "name") (.str "Unknown"))⟩

/-- The left-to-right map of `catOf` over the raw category records. -/
def catsOf : List JsVal → Except String (List CategoryJ)
  | [] => .ok []
  | x :: rest =>
    match catOf x with
    | .error e => .error e
    | .ok c =>
      match catsOf rest with
      | .error e => .error e
      | .ok cs => .ok (c :: cs)

/-- `getVODCategories` (index.ts lines 191–212): on a non-2xx status it
returns the empty list (`return []`) — it does not abort; otherwise it
parses the body (malformed → SyntaxError) and maps
`data.js?.data?.map(...) || []`. -/
def getVODCategories (r : Resp) : Except String (List CategoryJ) :=
  if !r.ok then .ok []
  else
    match r.body with
    | none => .error jsonParseErr
    | some d =>
      match getProp d "js" with
      | .error e => .error e
      | .ok js =>
        if isNullish js then .ok []
        else
          match getPropNN js "data" with
          | .undefined => .ok []
          | .null => .ok []
          | .arr l => catsOf l
          | _ => .error "TypeError: data.js.data.map is not a function"

/-- A parsed VOD item (movie or series episode); raw JS field values.
`cmd` holds the resolved stream link returned by `getStreamLink`. -/
structure VODItemJ where
  id : JsVal
  name : JsVal
  cmd : JsVal
  poster : JsVal
  group : JsVal

/-- The group label built by `getVODItems` (index.ts line 275); the
separator reproduces the source file's bytes exactly. -/
def vodGroup (kind : Kind) (categoryName : String) : String :=
  kindLabel kind ++ " â€“ " ++ categoryName

/-- The per-item body of `getVODItems`' inner loop (index.ts lines 263–277):
skip items with a falsy `cmd` (accessing `.cmd` on a nullish element
throws); resolve the stream link through the `resolve` oracle — a
resolution failure (`getStreamLink` returning a falsy value) skips the
item, while an exception from `getStreamLink` propagates; otherwise push
the normalized item. -/
def processItems (resolve : JsVal → Resp) (kind : Kind) (categoryName : String) :
    List JsVal → Except String (List VODItemJ)
  | [] => .ok []
  | item :: rest =>
    match getProp item "cmd" with
    | .error e => .error e
    | .ok cmd =>
      if !truthy cmd then processItems resolve kind categoryName rest
      else
        match getStreamLink (resolve cmd) with
        | .error e => .error e
        | .ok streamUrl =>
          if !truthy streamUrl then processItems resolve kind categoryName rest
          else
            match processItems resolve kind categoryName rest with
            | .error e => .error e
            | .ok tail =>
              .ok (⟨jsOr (getPropNN item "id") (.str ""),
                    jsOr (getPropNN item "name")
                      (jsOr (getPropNN item "title") (.str "Unknown")),
                    streamUrl,
                    jsOr (getPropNN item "poster_url")
                      (jsOr (getPropNN item "poster") (.str "")),
                    .str (vodGroup kind categoryName)⟩ :: tail)

/-- One page fetch of `getVODItems` (index.ts lines 258–261): a non-2xx
response breaks the loop (`none`), a malformed body raises, and
`data.js?.data || []` yields the item list — empty also breaks the loop.
A truthy non-array `js.data` is outside the modelled domain (in JS,
`for..of` over it would throw for non-string values). -/
def fetchPageItems (r : Resp) : Except String (Option (List JsVal)) :=
  if !r.ok then .ok none
  else
    match r.body with
    | none => .error jsonParseErr
    | some d =>
      match getProp d "js" with
      | .error e => .error e
      | .ok js =>
        let dv := if isNullish js then JsVal.undefined else getPropNN js "data"
        match jsOr dv (.arr []) with
        | .arr [] => .ok none
        | .arr l => .ok (some l)
        | _ => .error "TypeError: items is not iterable"

/-- The `while (true)` pagination loop of `getVODItems` (index.ts lines
245–280), as fuelled recursion returning both the accumulated items and the
list of page numbers that were requested.  Running out of fuel is a
modelling artefact reported as an error; every theorem supplies enough
fuel. -/
def vodLoop (pages : Nat → Resp) (resolve : JsVal → Resp) (kind : Kind)
    (categoryName : String) : Nat → Nat → Except String (List VODItemJ × List Nat)
  | 0, _ => .error "model: out of fuel"
  | fuel + 1, page =>
    match fetchPageItems (pages page) with
    | .error e => .error e
    | .ok none => .ok ([], [page])
    | .ok (some items) =>
      match processItems resolve kind categoryName items with
      | .error e => .error e
      | .ok out =>
        match vodLoop pages resolve kind categoryName fuel (page + 1) with
        | .error e => .error e
        | .ok (restOut, restTrace) => .ok (out ++ restOut, page :: restTrace)

/-- `getVODItems` (index.ts lines 233–283): paginated enumeration of one
category starting at page 1.  The `pages` oracle gives the response for
each requested page number; `resolve` gives the create-link response for
each raw command value. -/
def getVODItems (pages : Nat → Resp) (resolve : JsVal → Resp) (kind : Kind)
    (categoryName : String) (fuel : Nat) : Except String (List VODItemJ × List Nat) :=
  vodLoop pages resolve kind categoryName fuel 1

/-- Modelled from the spec: `getSeriesEpisodes` is called by `getVODRaw`
and `getVOD` (index.ts lines 159 and 183) but is defined nowhere in the
repository's sources.  Per the spec (§4.2–4.3) series episodes are
enumerated by the same paginated ordered-list walk as movies, resolving
each item's stream link with the series flag; the flag lives in the
`resolve` oracle, so the enumeration is `getVODItems` at kind `series`. -/
def getSeriesEpisodes (pages : Nat → Resp) (resolve : JsVal → Resp)
    (categoryName : String) (fuel : Nat) : Except String (List VODItemJ × List Nat) :=
  getVODItems pages resolve Kind.series categoryName fuel

/-- The aggregate returned by `getVODRaw` (index.ts lines 164–167). -/
structure VODData where
  categories : List CategoryJ
  items : List VODItemJ

/-- The per-category loop of `getVODRaw` (index.ts lines 154–162):
`allVOD.push(...items)` for each category in order, rendered as
concatenation in the same order. -/
def vodRawLoop (pages : String → Nat → Resp) (resolve : JsVal → Resp) (kind : Kind)
    (fuel : Nat) : List CategoryJ → Except String (List VODItemJ)
  | [] => .ok []
  | cat :: rest =>
    let run :=
      match kind with
      | .movies => getVODItems (pages (jsTemplate cat.id)) resolve .movies
          (jsTemplate cat.name) fuel
      | .series => getSeriesEpisodes (pages (jsTemplate cat.id)) resolve
          (jsTemplate cat.name) fuel
    match run with
    | .error e => .error e
    | .ok (items, _) =>
      match vodRawLoop pages resolve kind fuel rest with
      | .error e => .error e
      | .ok restItems => .ok (items ++ restItems)

/-- `getVODRaw` (index.ts lines 149–168): fetch the category list, then for
each category enumerate its items (movies via `getVODItems`, series via
`getSeriesEpisodes`) and concatenate. -/
def getVODRaw (catResp : Resp) (pages : String → Nat → Resp)
    (resolve : JsVal → Resp) (kind : Kind) (fuel : Nat) : Except String VODData :=
  match getVODCategories catResp with
  | .error e => .error e
  | .ok cats =>
    match vodRawLoop pages resolve kind fuel cats with
    | .error e => .error e
    | .ok items => .ok ⟨cats, items⟩

/-- `parseVOD` (index.ts lines 170–172): `return data.items || []` — the
items list of the aggregate (always an array, hence always truthy). -/
def parseVOD (data : VODData) : List VODItemJ := data.items

/-- The conversion result assembled by the request handler (index.ts lines
64–90): the parsed entity lists stored in the `conversions` table and the
counts returned in the response payload. -/
structure ConvResult where
  channels : List ChannelJ
  movies : List VODItemJ
  series : List VODItemJ
  channelCount : Nat
  movieCount : Nat
  seriesCount : Nat
  totalCount : Nat

/-- The conversion pipeline of the request handler (index.ts lines 54–90).
URL cleaning, MAC formatting and the token feed only the HTTP layer, which
the oracles abstract; they are computed for fidelity but do not key the
oracles.  `catResp` is the category-listing response per kind, `pages` the
ordered-list response per kind, category id and page number, and `resolve`
the create-link response per kind and raw command value. -/
def convert (portalUrl macAddress : String) (hsResp chResp : Resp)
    (catResp : Kind → Resp) (pages : Kind → String → Nat → Resp)
    (resolve : Kind → JsVal → Resp) (fuel : Nat) : Except String ConvResult :=
  let _cleanUrl := portalUrl.trim
  let _mac := formattedMac macAddress
  match handshake hsResp with
  | .error e => .error e
  | .ok _token =>
    match getChannelsRaw chResp with
    | .error e => .error e
    | .ok channelsData =>
      match getVODRaw (catResp .movies) (pages .movies) (resolve .movies) .movies fuel with
      | .error e => .error e
      | .ok moviesData =>
        match getVODRaw (catResp .series) (pages .series) (resolve .series) .series fuel with
        | .error e => .error e
        | .ok seriesData =>
          match parseChannels channelsData with
          | .error e => .error e
          | .ok channels =>
            let movies := parseVOD moviesData
            let series := parseVOD seriesData
            .ok ⟨channels, movies, series,
                 channels.length, movies.length, series.length,
                 channels.length + movies.length + series.length⟩

/-- `parseVODItems` of the variant edge function (unnamed part_001, lines
173–200): iterates `raw.js?.data || []`, skipping falsy-`cmd` records and
records whose stream link resolves falsy; name falls back through
`name`/`o_name`, poster through `screenshot_uri`/`pic`; `group` is the
flat literal `'Movies'`/`'Series'`. -/
def parseVODItemsRec (resolve : JsVal → Resp) (kind : Kind) :
    List JsVal → Except String (List VODItemJ)
  | [] => .ok []
  | item :: rest =>
    match getProp item "cmd" with
    | .error e => .error e
    | .ok cmd =>
      if !truthy cmd then parseVODItemsRec resolve kind rest
      else
        match getStreamLink (resolve cmd) with
        | .error e => .error e
        | .ok streamUrl =>
          if !truthy streamUrl then parseVODItemsRec resolve kind rest
          else
            match parseVODItemsRec resolve kind rest with
            | .error e => .error e
            | .ok tail =>
              .ok (⟨jsOr (getPropNN item "id") (.str ""),
                    jsOr (getPropNN item "name")
                      (jsOr (getPropNN item "o_name") (.str "Unknown")),
                    streamUrl,
                    jsOr (getPropNN item "screenshot_uri")
                      (jsOr (getPropNN item "pic") (.str "")),
                    .str (kindLabel kind)⟩ :: tail)

/-- `parseVODItems` (part_001 lines 173–200) over the raw envelope:
`raw.js?.data || []` (accessing `.js` on a nullish input throws; a truthy
non-array `js.data` is outside the modelled domain). -/
def parseVODItems (raw : JsVal) (resolve : JsVal → Resp) (kind : Kind) :
    Except String (List VODItemJ) :=
  match getProp raw "js" with
  | .error e => .error e
  | .ok js =>
    let dv := if isNullish js then JsVal.undefined else getPropNN js "data"
    match jsOr dv (.arr []) with
    | .arr l => parseVODItemsRec resolve kind l
    | _ => .error "TypeError: data is not iterable"

/-- The `Channel` interface (index.ts lines 16–23); optional fields are
modelled as strings with `""` for absent, matching both the parser's
defaults and JS truthiness in the serializer. -/
structure Channel where
  id : String
  name : String
  cmd : String
  logo : String
  number : String
  group : String
deriving DecidableEq, Repr

/-- The `VODItem` interface (index.ts lines 25–31). -/
structure VODItem where
  id : String
  name : String
  cmd : String
  poster : String
  group : String
deriving DecidableEq, Repr

/-- `streamUrl.replace(/^(ffmpeg|ffrt|ffrt2k) /, '')` (index.ts line 298):
strip one leading engine token.  The three token-plus-space prefixes are
mutually exclusive, so the regexp's ordered alternation with backtracking
is equivalent to this prefix test. -/
def stripEngineToken (s : String) : String :=
  if jsStartsWith s "ffmpeg " then jsDrop s 7
  else if jsStartsWith s "ffrt " then jsDrop s 5
  else if jsStartsWith s "ffrt2k " then jsDrop s 7
  else s

/-- The stream-URL cleanup applied to each entity's `cmd` at serialization
time (index.ts lines 296–299): falsy or `http`-prefixed URLs pass through
unchanged, anything else loses a leading engine token. -/
def cleanStreamUrl (s : String) : String :=
  if s = "" then s
  else if jsStartsWith s "http" then s
  else stripEngineToken s

/-- The `#EXTINF` line built for a channel (index.ts lines 290–294):
attributes in the fixed order id, logo, group, each present exactly when
the field is truthy (non-empty), then a comma and the name. -/
def chanLine (channel : Channel) : String :=
  let tvgLogo := if channel.logo = "" then "" else " tvg-logo=\"" ++ channel.logo ++ "\""
  let tvgId := if channel.id = "" then "" else " tvg-id=\"" ++ channel.id ++ "\""
  let groupTitle := if channel.group = "" then "" else " group-title=\"" ++ channel.group ++ "\""
  "#EXTINF:-1" ++ tvgId ++ tvgLogo ++ groupTitle ++ "," ++ channel.name

/-- The `#EXTINF` line built for a movie or series item (index.ts lines
306–310 and 322–326, which are verbatim copies of each other). -/
def vodLine (item : VODItem) : String :=
  let tvgLogo := if item.poster = "" then "" else " tvg-logo=\"" ++ item.poster ++ "\""
  let tvgId := if item.id = "" then "" else " tvg-id=\"" ++ item.id ++ "\""
  let groupTitle := if item.group = "" then "" else " group-title=\"" ++ item.group ++ "\""
  "#EXTINF:-1" ++ tvgId ++ tvgLogo ++ groupTitle ++ "," ++ item.name

/-- `generateM3U` (index.ts lines 285–337): the `#EXTM3U` header, then for
each channel, movie and series item — in that order — the `#EXTINF` line
and the cleaned stream URL, each followed by a newline, accumulated by
string concatenation exactly as the source's three loops do. -/
def generateM3U (channels : List Channel) (movies : List VODItem)
    (series : List VODItem) : String :=
  let m3u := "#EXTM3U\n"
  let m3u := channels.foldl
    (fun acc channel => acc ++ chanLine channel ++ "\n" ++ cleanStreamUrl channel.cmd ++ "\n") m3u
  let m3u := movies.foldl
    (fun acc movie => acc ++ vodLine movie ++ "\n" ++ cleanStreamUrl movie.cmd ++ "\n") m3u
  let m3u := series.foldl
    (fun acc serie => acc ++ vodLine serie ++ "\n" ++ cleanStreamUrl serie.cmd ++ "\n") m3u
  m3u

/-- Split a character list into lines at newline characters (the final,
possibly empty, line is always present, as for `String.split`). -/
def splitNl : List Char → List (List Char)
  | [] => [[]]
  | c :: rest =>
    if c = '\n' then [] :: splitNl rest
    else
      match splitNl rest with
      | [] => [[c]]
      | l :: ls => (c :: l) :: ls

/-- The number of lines of a serialized playlist that begin with
`#EXTINF`. -/
def countExtinf (s : String) : Nat :=
  ((splitNl s.data).filter (fun l => "#EXTINF".data.isPrefixOf l)).length

/-- A channel all of whose fields are free of newline characters. -/
def chanNoNl (c : Channel) : Prop :=
  Char.ofNat 10 ∉ c.id.data ∧ Char.ofNat 10 ∉ c.name.data ∧ Char.ofNat 10 ∉ c.cmd.data ∧
    Char.ofNat 10 ∉ c.logo.data ∧ Char.ofNat 10 ∉ c.group.data

/-- A string free of newline characters. -/
abbrev noNlS (s : String) : Prop := Char.ofNat 10 ∉ s.data

/-- A VOD item all of whose fields are free of newline characters. -/
def vodNoNl (v : VODItem) : Prop :=
  Char.ofNat 10 ∉ v.id.data ∧ Char.ofNat 10 ∉ v.name.data ∧ Char.ofNat 10 ∉ v.cmd.data ∧
    Char.ofNat 10 ∉ v.poster.data ∧ Char.ofNat 10 ∉ v.group.data

/-! ### Supporting lemmas: characters and MAC re-grouping -/

theorem charEq_of_toNat (c d : Char) (h : c.toNat = d.toNat) : c = d :=
  Char.eq_of_val_eq (UInt32.ext h)

theorem toNat_ofNat_valid (n : Nat) (h : n.isValidChar) : (Char.ofNat n).toNat = n := by
  simp [Char.ofNat, h, Char.ofNatAux, Char.toNat, UInt32.toNat, BitVec.toNat_ofNatLt]

theorem jsUpper_toNat (c : Char) :
    (jsUpper c).toNat = if 97 ≤ c.toNat ∧ c.toNat ≤ 122 then c.toNat - 32 else c.toNat := by
  unfold jsUpper
  split
  · rename_i h
    exact toNat_ofNat_valid _ (Or.inl (by omega))
  · rfl

theorem jsUpper_idem (c : Char) : jsUpper (jsUpper c) = jsUpper c := by
  by_cases h : 97 ≤ c.toNat ∧ c.toNat ≤ 122
  · have ht : (jsUpper c).toNat = c.toNat - 32 := by rw [jsUpper_toNat, if_pos h]
    have hno : ¬(97 ≤ (jsUpper c).toNat ∧ (jsUpper c).toNat ≤ 122) := by omega
    show (if 97 ≤ (jsUpper c).toNat ∧ (jsUpper c).toNat ≤ 122
        then Char.ofNat ((jsUpper c).toNat - 32) else jsUpper c) = jsUpper c
    rw [if_neg hno]
  · have he : jsUpper c = c := by unfold jsUpper; rw [if_neg h]
    rw [he, he]

theorem isSep_iff (c : Char) : isSep c = true ↔ c.toNat = 58 ∨ c.toNat = 45 := by
  constructor
  · intro h
    simp [isSep] at h
    rcases h with h | h <;> subst h <;> decide
  · intro h
    rcases h with h | h
    · have : c = ':' := charEq_of_toNat _ _ h
      subst this; decide
    · have : c = '-' := charEq_of_toNat _ _ h
      subst this; decide

theorem lineTerm_iff (c : Char) :
    lineTerm c = true ↔ c.toNat = 10 ∨ c.toNat = 13 ∨ c.toNat = 8232 ∨ c.toNat = 8233 := by
  constructor
  · intro h
    simp [lineTerm] at h
    rcases h with ((h | h) | h) | h <;> (subst h; decide)
  · intro h
    rcases h with h | h | h | h
    · have : c = Char.ofNat 10 := charEq_of_toNat _ _ (by rw [h]; decide)
      subst this; decide
    · have : c = Char.ofNat 13 := charEq_of_toNat _ _ (by rw [h]; decide)
      subst this; decide
    · have : c = Char.ofNat 8232 := charEq_of_toNat _ _ (by rw [h]; decide)
      subst this; decide
    · have : c = Char.ofNat 8233 := charEq_of_toNat _ _ (by rw [h]; decide)
      subst this; decide

theorem isSep_jsUpper (c : Char) : isSep (jsUpper c) = isSep c := by
  by_cases h : 97 ≤ c.toNat ∧ c.toNat ≤ 122
  · have ht : (jsUpper c).toNat = c.toNat - 32 := by rw [jsUpper_toNat, if_pos h]
    have h1 : isSep (jsUpper c) = false := by
      rw [Bool.eq_false_iff]
      intro hx
      rcases (isSep_iff _).mp hx with hy | hy <;> omega
    have h2 : isSep c = false := by
      rw [Bool.eq_false_iff]
      intro hx
      rcases (isSep_iff _).mp hx with hy | hy <;> omega
    rw [h1, h2]
  · have he : jsUpper c = c := by unfold jsUpper; rw [if_neg h]
    rw [he]

theorem lineTerm_jsUpper (c : Char) : lineTerm (jsUpper c) = lineTerm c := by
  by_cases h : 97 ≤ c.toNat ∧ c.toNat ≤ 122
  · have ht : (jsUpper c).toNat = c.toNat - 32 := by rw [jsUpper_toNat, if_pos h]
    have h1 : lineTerm (jsUpper c) = false := by
      rw [Bool.eq_false_iff]
      intro hx
      rcases (lineTerm_iff _).mp hx with hy | hy | hy | hy <;> omega
    have h2 : lineTerm c = false := by
      rw [Bool.eq_false_iff]
      intro hx
      rcases (lineTerm_iff _).mp hx with hy | hy | hy | hy <;> omega
    rw [h1, h2]
  · have he : jsUpper c = c := by unfold jsUpper; rw [if_neg h]
    rw [he]

theorem isUpperHex_jsUpper (c : Char) (h : isHexDigit c = true) :
    isUpperHex (jsUpper c) = true := by
  simp [isHexDigit] at h
  simp only [isUpperHex, jsUpper_toNat]
  by_cases hc : 97 ≤ c.toNat ∧ c.toNat ≤ 122
  · rw [if_pos hc]; simp; omega
  · rw [if_neg hc]; simp; omega

theorem stripSep_map_jsUpper (l : List Char) :
    stripSep (l.map jsUpper) = (stripSep l).map jsUpper := by
  induction l with
  | nil => rfl
  | cons c rest ih =>
    simp only [List.map_cons, stripSep, List.filter_cons, isSep_jsUpper]
    split <;> simp_all [stripSep]

theorem chunkMatch_mem : ∀ (l : List Char) (g : List Char), g ∈ chunkMatch l →
    g ≠ [] ∧ g.length ≤ 2 ∧ ∀ c ∈ g, c ∈ l
  | [], g => by simp [chunkMatch]
  | [c], g => by
    intro hg
    simp only [chunkMatch] at hg
    by_cases h : lineTerm c
    · rw [if_pos h] at hg; simp [chunkMatch] at hg
    · rw [if_neg h] at hg
      simp at hg
      subst hg
      simp
  | c :: d :: rest, g => by
    intro hg
    simp only [chunkMatch] at hg
    by_cases h1 : lineTerm c
    · rw [if_pos h1] at hg
      have h := chunkMatch_mem (d :: rest) g hg
      exact ⟨h.1, h.2.1, fun x hx => List.mem_cons_of_mem _ (h.2.2 x hx)⟩
    · rw [if_neg h1] at hg
      by_cases h2 : lineTerm d
      · rw [if_pos h2] at hg
        rcases List.mem_cons.mp hg with hgg | hgg
        · subst hgg
          refine ⟨by simp, by simp, ?_⟩
          intro x hx
          simp at hx
          subst hx
          simp
        · have h := chunkMatch_mem rest g hgg
          exact ⟨h.1, h.2.1, fun x hx =>
            List.mem_cons_of_mem _ (List.mem_cons_of_mem _ (h.2.2 x hx))⟩
      · rw [if_neg h2] at hg
        rcases List.mem_cons.mp hg with hgg | hgg
        · subst hgg
          refine ⟨by simp, by simp, ?_⟩
          intro x hx
          simp at hx
          rcases hx with hx | hx <;> simp [hx]
        · have h := chunkMatch_mem rest g hgg
          exact ⟨h.1, h.2.1, fun x hx =>
            List.mem_cons_of_mem _ (List.mem_cons_of_mem _ (h.2.2 x hx))⟩

theorem chunkMatch_flatten : ∀ (l : List Char), (∀ c ∈ l, lineTerm c = false) →
    (chunkMatch l).flatten = l
  | [] => by simp [chunkMatch]
  | [c] => by
    intro h
    simp [chunkMatch, h c (by simp)]
  | c :: d :: rest => by
    intro h
    have ih := chunkMatch_flatten rest (fun x hx => h x (by simp [hx]))
    simp [chunkMatch, h c (by simp), h d (by simp), ih]

theorem chunkMatch_len2 : ∀ (l : List Char), (∀ c ∈ l, lineTerm c = false) →
    l.length % 2 = 0 → ∀ g ∈ chunkMatch l, g.length = 2
  | [] => by simp [chunkMatch]
  | [c] => by intro _ hlen; simp at hlen
  | c :: d :: rest => by
    intro h hlen g hg
    simp only [chunkMatch] at hg
    rw [if_neg (by simp [h c (by simp)]), if_neg (by simp [h d (by simp)])] at hg
    rcases List.mem_cons.mp hg with hgg | hgg
    · subst hgg; rfl
    · refine chunkMatch_len2 rest (fun x hx => h x (by simp [hx])) ?_ g hgg
      simp at hlen
      omega

theorem chunkMatch_count : ∀ (l : List Char), (∀ c ∈ l, lineTerm c = false) →
    (chunkMatch l).length = (l.length + 1) / 2
  | [] => by simp [chunkMatch]
  | [c] => by
    intro h
    simp [chunkMatch, h c (by simp)]
  | c :: d :: rest => by
    intro h
    have ih := chunkMatch_count rest (fun x hx => h x (by simp [hx]))
    simp [chunkMatch, h c (by simp), h d (by simp), ih]
    omega

theorem stripSep_eq_self (l : List Char) (h : ∀ c ∈ l, isSep c = false) :
    stripSep l = l := by
  rw [stripSep, List.filter_eq_self]
  intro c hc
  simp [h c hc]

theorem stripSep_colon_cons (l : List Char) : stripSep (':' :: l) = stripSep l := by
  simp [stripSep, List.filter_cons]
  decide

theorem stripSep_joinColon : ∀ (gs : List (List Char)),
    (∀ g ∈ gs, ∀ c ∈ g, isSep c = false) → stripSep (joinColon gs) = gs.flatten
  | [] => by intro _; simp [joinColon, stripSep]
  | [g] => by
    intro h
    simp only [joinColon, List.flatten]
    rw [stripSep_eq_self g (h g (by simp))]
    simp
  | g :: g' :: rest => by
    intro h
    simp only [joinColon]
    rw [stripSep, List.filter_append, ← stripSep, ← stripSep, stripSep_colon_cons]
    rw [stripSep_eq_self g (h g (by simp))]
    rw [stripSep_joinColon (g' :: rest) (fun x hx => h x (by simp [hx]))]
    simp

theorem map_jsUpper_fixed (l : List Char) (h : ∀ c ∈ l, jsUpper c = c) :
    l.map jsUpper = l := by
  induction l with
  | nil => rfl
  | cons c rest ih =>
    simp only [List.map_cons, h c (by simp), ih (fun x hx => h x (by simp [hx]))]

theorem map_jsUpper_joinColon : ∀ (gs : List (List Char)),
    (∀ g ∈ gs, ∀ c ∈ g, jsUpper c = c) → (joinColon gs).map jsUpper = joinColon gs
  | [] => by intro _; simp [joinColon]
  | [g] => by
    intro h
    simp only [joinColon]
    exact map_jsUpper_fixed g (h g (by simp))
  | g :: g' :: rest => by
    intro h
    simp only [joinColon, List.map_append, List.map_cons]
    rw [map_jsUpper_fixed g (h g (by simp))]
    rw [map_jsUpper_joinColon (g' :: rest) (fun x hx => h x (by simp [hx]))]
    rw [show jsUpper ':' = ':' by decide]

theorem splitColon_noColon : ∀ (l : List Char), (∀ c ∈ l, c ≠ ':') →
    splitColon l = [l]
  | [] => by intro _; rfl
  | c :: rest => by
    intro h
    have ih := splitColon_noColon rest (fun x hx => h x (by simp [hx]))
    simp [splitColon, h c (by simp), ih]

theorem splitColon_append (g r : List Char) (h : ∀ c ∈ g, c ≠ ':') :
    splitColon (g ++ ':' :: r) = g :: splitColon r := by
  induction g with
  | nil => simp [splitColon]
  | cons c rest ih =>
    have hih := ih (fun x hx => h x (by simp [hx]))
    have hc : ¬(c = ':') := h c (by simp)
    simp only [List.cons_append, splitColon, if_neg hc, hih]
    have hih2 : splitColon (rest.append (':' :: r)) = rest :: splitColon r := hih
    rw [hih2]

theorem splitColon_joinColon : ∀ (gs : List (List Char)), gs ≠ [] →
    (∀ g ∈ gs, ∀ c ∈ g, c ≠ ':') → splitColon (joinColon gs) = gs
  | [], h, _ => absurd rfl h
  | [g], _, h => by
    simp only [joinColon]
    exact splitColon_noColon g (h g (by simp))
  | g :: g' :: rest, _, h => by
    simp only [joinColon]
    rw [splitColon_append g _ (h g (by simp))]
    rw [splitColon_joinColon (g' :: rest) (by simp) (fun x hx => h x (by simp [hx]))]

/-! ### C5 and C6: device-identity normalization -/

/-- C5 counterexample: the claim says normalization always yields either
exactly 6 groups of 2 hex digits joined by colons or the original input
unchanged; input `"abc"` yields `"AB:C"`, which is neither. -/
theorem c5_counterexample :
    formattedMac "abc" = "AB:C" ∧ isCanonicalMac "AB:C" = false ∧ "AB:C" ≠ "abc" :=
  ⟨by decide, by decide, by decide⟩

/-- C5 (amended): device-identity normalization performs no hex or length
validation.  For every input string the output is either the original
input passed through unchanged (when re-grouping produces no group), or
the colon-join of one or more non-empty groups of at most two characters,
none of which is a separator character. -/
theorem c5_amended (s : String) :
    formattedMac s = s ∨
    ∃ gs : List (List Char), gs ≠ [] ∧
      (∀ g ∈ gs, g ≠ [] ∧ g.length ≤ 2 ∧ ∀ c ∈ g, isSep c = false) ∧
      formattedMac s = String.mk (joinColon gs) := by
  cases hm : chunkMatch (stripSep (s.data.map jsUpper)) with
  | nil =>
    left
    simp only [formattedMac]
    rw [hm]
  | cons g rest =>
    right
    refine ⟨g :: rest, by simp, ?_, by simp only [formattedMac]; rw [hm]⟩
    intro g' hg'
    have h := chunkMatch_mem _ g' (hm ▸ hg')
    refine ⟨h.1, h.2.1, ?_⟩
    intro c hc
    have hmem := h.2.2 c hc
    have hf := List.mem_filter.mp hmem
    simpa using hf.2

/-- C6 counterexample: normalization is not idempotent.  On the input
`"a\nbc"` the regexp `.{1,2}` cannot match across the newline, so the
first pass groups as `"A:BC"`; the second pass strips the colon and
re-groups as `"AB:C"`. -/
theorem c6_counterexample :
    formattedMac "a\nbc" = "A:BC" ∧ formattedMac (formattedMac "a\nbc") = "AB:C" ∧
      formattedMac (formattedMac "a\nbc") ≠ formattedMac "a\nbc" :=
  ⟨by decide, by decide, by decide⟩

/-- C6 (amended): device-identity normalization is idempotent on every
input free of ECMAScript line terminators (on inputs containing a line
terminator the re-grouping can differ between passes), and every input
that strips to exactly 12 hex digits normalizes to the canonical form:
6 groups of 2 uppercase hex digits joined by colons. -/
theorem c6_amended :
    (∀ s : String, (∀ c ∈ s.data, lineTerm c = false) →
      formattedMac (formattedMac s) = formattedMac s) ∧
    (∀ s : String, (stripSep s.data).length = 12 →
      (∀ c ∈ stripSep s.data, isHexDigit c = true) →
      isCanonicalMac (formattedMac s) = true) := by
  constructor
  · intro s hs
    have hnoTermU : ∀ c ∈ stripSep (s.data.map jsUpper), lineTerm c = false := by
      intro c hc
      have hc2 := (List.mem_filter.mp hc).1
      rcases List.mem_map.mp hc2 with ⟨c0, hc0, rfl⟩
      rw [lineTerm_jsUpper]
      exact hs c0 hc0
    have hfix : ∀ c ∈ stripSep (s.data.map jsUpper), jsUpper c = c := by
      intro c hc
      have hc2 := (List.mem_filter.mp hc).1
      rcases List.mem_map.mp hc2 with ⟨c0, _, rfl⟩
      exact jsUpper_idem c0
    have hnosep : ∀ c ∈ stripSep (s.data.map jsUpper), isSep c = false := by
      intro c hc
      simpa using (List.mem_filter.mp hc).2
    cases hm : chunkMatch (stripSep (s.data.map jsUpper)) with
    | nil =>
      have h1 : formattedMac s = s := by
        simp only [formattedMac]
        rw [hm]
      rw [h1]
      exact h1
    | cons g rest =>
      have hmemAll : ∀ g' ∈ g :: rest, ∀ c ∈ g', c ∈ stripSep (s.data.map jsUpper) := by
        intro g' hg' c hc
        exact (chunkMatch_mem _ g' (hm ▸ hg')).2.2 c hc
      have hfixAll : ∀ g' ∈ g :: rest, ∀ c ∈ g', jsUpper c = c :=
        fun g' hg' c hc => hfix c (hmemAll g' hg' c hc)
      have hsepAll : ∀ g' ∈ g :: rest, ∀ c ∈ g', isSep c = false :=
        fun g' hg' c hc => hnosep c (hmemAll g' hg' c hc)
      have hstrip : stripSep ((String.mk (joinColon (g :: rest))).data.map jsUpper)
          = stripSep (s.data.map jsUpper) := by
        show stripSep ((joinColon (g :: rest)).map jsUpper) = _
        rw [map_jsUpper_joinColon _ hfixAll, stripSep_joinColon _ hsepAll, ← hm]
        exact chunkMatch_flatten _ hnoTermU
      have h1 : formattedMac s = String.mk (joinColon (g :: rest)) := by
        simp only [formattedMac]
        rw [hm]
      rw [h1]
      simp only [formattedMac]
      rw [hstrip, hm]
  · intro s hlen hhex
    have hcomm : stripSep (s.data.map jsUpper) = (stripSep s.data).map jsUpper :=
      stripSep_map_jsUpper s.data
    have hulen : (stripSep (s.data.map jsUpper)).length = 12 := by
      rw [hcomm, List.length_map, hlen]
    have huhex : ∀ c ∈ stripSep (s.data.map jsUpper), isUpperHex c = true := by
      intro c hc
      rw [hcomm] at hc
      rcases List.mem_map.mp hc with ⟨c0, hc0, rfl⟩
      exact isUpperHex_jsUpper c0 (hhex c0 hc0)
    have hnoterm : ∀ c ∈ stripSep (s.data.map jsUpper), lineTerm c = false := by
      intro c hc
      have hx := huhex c hc
      simp [isUpperHex] at hx
      rw [Bool.eq_false_iff]
      intro hl
      rcases (lineTerm_iff c).mp hl with h | h | h | h <;> omega
    have hcnt : (chunkMatch (stripSep (s.data.map jsUpper))).length = 6 := by
      rw [chunkMatch_count _ hnoterm, hulen]
    have hlen2 : ∀ g ∈ chunkMatch (stripSep (s.data.map jsUpper)), g.length = 2 :=
      chunkMatch_len2 _ hnoterm (by rw [hulen])
    cases hm : chunkMatch (stripSep (s.data.map jsUpper)) with
    | nil =>
      rw [hm] at hcnt
      simp at hcnt
    | cons g rest =>
      have hform : formattedMac s = String.mk (joinColon (g :: rest)) := by
        simp only [formattedMac]
        rw [hm]
      rw [hform]
      have hnocolon : ∀ g' ∈ g :: rest, ∀ c ∈ g', c ≠ ':' := by
        intro g' hg' c hc
        have hcu := (chunkMatch_mem _ g' (hm ▸ hg')).2.2 c hc
        have hx := huhex c hcu
        intro heq
        subst heq
        exact absurd hx (by decide)
      have hsplit : splitColon (String.mk (joinColon (g :: rest))).data = g :: rest := by
        show splitColon (joinColon (g :: rest)) = g :: rest
        exact splitColon_joinColon _ (by simp) hnocolon
      unfold isCanonicalMac
      rw [hsplit]
      simp only [Bool.and_eq_true]
      refine ⟨?_, ?_⟩
      · rw [hm] at hcnt
        simp [hcnt]
      · rw [List.all_eq_true]
        intro g' hg'
        simp only [Bool.and_eq_true]
        refine ⟨?_, ?_⟩
        · have := hlen2 g' (hm ▸ hg')
          simp [this]
        · rw [List.all_eq_true]
          intro c hc
          exact huhex c ((chunkMatch_mem _ g' (hm ▸ hg')).2.2 c hc)

/-- C6 witness: the amended theorem applied to the spec's example MAC. -/
theorem c6_witness :
    formattedMac (formattedMac "00:1a:79:12:34:56") = formattedMac "00:1a:79:12:34:56" ∧
      isCanonicalMac (formattedMac "00:1a:79:12:34:56") = true :=
  ⟨c6_amended.1 "00:1a:79:12:34:56" (by decide),
   c6_amended.2 "00:1a:79:12:34:56" (by decide) (by decide)⟩

/-! ### C8: stream-URL cleanup -/

theorem append_ne_empty_string (p r : String) (hp : p.data ≠ []) : p ++ r ≠ "" := by
  intro h
  have h2 := congrArg String.data h
  rw [String.data_append] at h2
  rcases List.append_eq_nil.mp h2 with ⟨h3, _⟩
  exact hp h3

/-- C8: stream-URL cleanup is a pure prefix strip.  For every URL that
does not start with `http` and is `"ffmpeg "`, `"ffrt "` or `"ffrt2k "`
followed by a remainder, the cleanup removes exactly that leading token
and emits the remainder verbatim; every URL that starts with `http` is
emitted unchanged. -/
theorem c8_prefix_strip :
    (∀ s : String, jsStartsWith s "http" = false →
      (∀ r : String, s = "ffmpeg " ++ r → cleanStreamUrl s = r) ∧
      (∀ r : String, s = "ffrt " ++ r → cleanStreamUrl s = r) ∧
      (∀ r : String, s = "ffrt2k " ++ r → cleanStreamUrl s = r)) ∧
    (∀ s : String, jsStartsWith s "http" = true → cleanStreamUrl s = s) := by
  constructor
  · intro s hhttp
    refine ⟨?_, ?_, ?_⟩ <;> intro r hr <;> subst hr
    · have hne : ("ffmpeg " ++ r) ≠ "" := append_ne_empty_string _ _ (by decide)
      have hpre : jsStartsWith ("ffmpeg " ++ r) "ffmpeg " = true := by
        rw [jsStartsWith, String.data_append]
        exact List.isPrefixOf_iff_prefix.mpr (List.prefix_append _ _)
      rw [cleanStreamUrl, if_neg hne, if_neg (by simp [hhttp]), stripEngineToken, if_pos hpre]
      show String.mk (("ffmpeg ".data ++ r.data).drop 7) = r
      rw [show (7 : Nat) = "ffmpeg ".data.length from rfl, List.drop_left]
    · have hne : ("ffrt " ++ r) ≠ "" := append_ne_empty_string _ _ (by decide)
      have hpre : jsStartsWith ("ffrt " ++ r) "ffrt " = true := by
        rw [jsStartsWith, String.data_append]
        exact List.isPrefixOf_iff_prefix.mpr (List.prefix_append _ _)
      have hnof : jsStartsWith ("ffrt " ++ r) "ffmpeg " = false := by
        show ("ffmpeg ".data).isPrefixOf ('f' :: 'f' :: 'r' :: 't' :: ' ' :: r.data) = false
        simp [List.isPrefixOf]
      rw [cleanStreamUrl, if_neg hne, if_neg (by simp [hhttp]), stripEngineToken,
        if_neg (by simp [hnof]), if_pos hpre]
      show String.mk (("ffrt ".data ++ r.data).drop 5) = r
      rw [show (5 : Nat) = "ffrt ".data.length from rfl, List.drop_left]
    · have hne : ("ffrt2k " ++ r) ≠ "" := append_ne_empty_string _ _ (by decide)
      have hpre : jsStartsWith ("ffrt2k " ++ r) "ffrt2k " = true := by
        rw [jsStartsWith, String.data_append]
        exact List.isPrefixOf_iff_prefix.mpr (List.prefix_append _ _)
      have hnof : jsStartsWith ("ffrt2k " ++ r) "ffmpeg " = false := by
        show ("ffmpeg ".data).isPrefixOf ('f' :: 'f' :: 'r' :: 't' :: '2' :: 'k' :: ' ' :: r.data) = false
        simp [List.isPrefixOf]
      have hnor : jsStartsWith ("ffrt2k " ++ r) "ffrt " = false := by
        show ("ffrt ".data).isPrefixOf ('f' :: 'f' :: 'r' :: 't' :: '2' :: 'k' :: ' ' :: r.data) = false
        simp [List.isPrefixOf]
      rw [cleanStreamUrl, if_neg hne, if_neg (by simp [hhttp]), stripEngineToken,
        if_neg (by simp [hnof]), if_neg (by simp [hnor]), if_pos hpre]
      show String.mk (("ffrt2k ".data ++ r.data).drop 7) = r
      rw [show (7 : Nat) = "ffrt2k ".data.length from rfl, List.drop_left]
  · intro s hhttp
    have hne : s ≠ "" := by
      intro h
      subst h
      simp [jsStartsWith, List.isPrefixOf] at hhttp
    rw [cleanStreamUrl, if_neg hne, if_pos hhttp]

/-- C8 witness: the theorem applied at concrete engine-prefixed and
`http`-prefixed URLs. -/
theorem c8_witness :
    cleanStreamUrl "ffmpeg rtsp://host/1" = "rtsp://host/1" ∧
      cleanStreamUrl "http://host/2" = "http://host/2" :=
  ⟨(c8_prefix_strip.1 "ffmpeg rtsp://host/1" (by decide)).1 "rtsp://host/1" rfl,
   c8_prefix_strip.2 "http://host/2" (by decide)⟩

/-! ### C2 and C9: stream-link resolution and handshake -/

theorem optChain_eq (js : JsVal) (k : String) :
    (if isNullish js then JsVal.undefined else getPropNN js k) = getPropNN js k := by
  cases js <;> rfl

/-- C2 counterexample: on a 2xx response whose body is not valid JSON,
`getStreamLink` does not return the empty string — the `response.json()`
exception propagates to the caller. -/
theorem c2_counterexample :
    getStreamLink ⟨true, "OK", none⟩ = .error jsonParseErr := rfl

/-- C2 (amended): `getStreamLink` returns the `js.cmd` field of the parsed
response when the call succeeds and that field is truthy, and the empty
string on a non-2xx status or when the parsed field is absent or falsy;
but a 2xx response whose body is malformed JSON (or whose parsed body is
nullish) makes the resolution raise, and the exception propagates to the
caller. -/
theorem c2_amended (r : Resp) :
    (r.ok = false → getStreamLink r = .ok (.str "")) ∧
    (r.ok = true → r.body = none → getStreamLink r = .error jsonParseErr) ∧
    (∀ d, r.ok = true → r.body = some d → isNullish d = true →
      ∃ e, getStreamLink r = .error e) ∧
    (∀ d v, r.ok = true → r.body = some d → isNullish d = false →
      getPropNN (getPropNN d "js") "cmd" = v → truthy v = true →
      getStreamLink r = .ok v) ∧
    (∀ d, r.ok = true → r.body = some d → isNullish d = false →
      truthy (getPropNN (getPropNN d "js") "cmd") = false →
      getStreamLink r = .ok (.str "")) := by
  obtain ⟨ok, st, body⟩ := r
  refine ⟨?_, ?_, ?_, ?_, ?_⟩
  · intro h
    subst h
    rfl
  · intro h hb
    subst h
    subst hb
    rfl
  · intro d h hb hn
    subst h
    subst hb
    refine ⟨"TypeError: cannot read properties of null or undefined (reading js)", ?_⟩
    simp [getStreamLink, getProp, hn]
  · intro d v h hb hn hv htr
    subst h
    subst hb
    simp only [getStreamLink, getProp, hn, Bool.false_eq_true, if_false, optChain_eq]
    rw [hv]
    simp [jsOr, htr]
  · intro d h hb hn htr
    subst h
    subst hb
    simp only [getStreamLink, getProp, hn, Bool.false_eq_true, if_false, optChain_eq]
    simp [jsOr, htr]

/-- C2 witness: the amended theorem applied at concrete responses — a
successful resolution, a non-2xx response, and a parsed body with a falsy
`js.cmd`. -/
theorem c2_witness :
    getStreamLink ⟨true, "OK", some (.obj [("js", .obj [("cmd", .str "http://x/1")])])⟩
        = .ok (.str "http://x/1") ∧
      getStreamLink ⟨false, "Not Found", some (.obj [])⟩ = .ok (.str "") ∧
      getStreamLink ⟨true, "OK", some (.obj [("js", .obj [])])⟩ = .ok (.str "") :=
  ⟨(c2_amended _).2.2.2.1 (.obj [("js", .obj [("cmd", .str "http://x/1")])])
      (.str "http://x/1") rfl rfl rfl rfl rfl,
   (c2_amended _).1 rfl,
   (c2_amended _).2.2.2.2 (.obj [("js", .obj [])]) rfl rfl rfl rfl⟩

/-- C9 counterexample: a 2xx handshake response whose `js.token` field is
present but equal to the empty string is rejected with the missing-token
error, although the claim says that error occurs exactly when the field is
absent (and that a present string token is returned). -/
theorem c9_counterexample :
    handshake ⟨true, "OK", some (.obj [("js", .obj [("token", .str "")])])⟩ =
        .error "Failed to get token from handshake" ∧
      getPropNN (getPropNN (JsVal.obj [("js", .obj [("token", .str "")])]) "js") "token"
        = .str "" :=
  ⟨rfl, rfl⟩

/-- C9 (amended): the handshake returns the token when the response is 2xx
with a parsed, non-nullish envelope whose `js` value and `js.token` value
are both truthy; it fails with the `Handshake failed` error exactly on a
non-2xx status, and with the distinct missing-token error when the parsed
envelope's `js` is falsy or its `js.token` is absent, empty or otherwise
falsy; a malformed body raises the JSON parse error instead.  The two
protocol failure messages are distinguishable from each other. -/
theorem c9_amended (r : Resp) :
    (r.ok = false → handshake r = .error ("Handshake failed: " ++ r.statusText)) ∧
    (r.ok = true → r.body = none → handshake r = .error jsonParseErr) ∧
    (∀ d tok, r.ok = true → r.body = some d → isNullish d = false →
      truthy (getPropNN d "js") = true →
      getPropNN (getPropNN d "js") "token" = tok → truthy tok = true →
      handshake r = .ok tok) ∧
    (∀ d, r.ok = true → r.body = some d → isNullish d = false →
      (truthy (getPropNN d "js") = false ∨
        truthy (getPropNN (getPropNN d "js") "token") = false) →
      handshake r = .error "Failed to get token from handshake") ∧
    (∀ st : String, "Handshake failed: " ++ st ≠ "Failed to get token from handshake") := by
  obtain ⟨ok, st, body⟩ := r
  refine ⟨?_, ?_, ?_, ?_, ?_⟩
  · intro h
    subst h
    rfl
  · intro h hb
    subst h
    subst hb
    rfl
  · intro d tok h hb hn hjs htok htr
    subst h
    subst hb
    simp only [handshake, getProp, hn, Bool.false_eq_true, if_false, hjs, htok]
    simp [htr]
  · intro d h hb hn hcase
    subst h
    subst hb
    simp only [handshake, getProp, hn, Bool.false_eq_true, if_false]
    rcases hcase with hjs | htok
    · simp [hjs]
    · cases hjs : truthy (getPropNN d "js") with
      | false => simp [hjs]
      | true => simp [hjs, htok]
  · intro s h
    have h2 := congrArg String.data h
    rw [String.data_append] at h2
    have h3 := congrArg List.head? h2
    rw [show ("Handshake failed: ".data ++ s.data).head? = some (Char.ofNat 72) from rfl] at h3
    rw [show ("Failed to get token from handshake".data).head? = some (Char.ofNat 70) from rfl] at h3
    exact absurd h3 (by decide)

/-- C9 witness: the amended theorem applied at concrete responses — a
successful handshake, a non-2xx response, and a 2xx response without a
token. -/
theorem c9_witness :
    handshake ⟨true, "OK", some (.obj [("js", .obj [("token", .str "abc")])])⟩
        = .ok (.str "abc") ∧
      handshake ⟨false, "Forbidden", none⟩ = .error "Handshake failed: Forbidden" ∧
      handshake ⟨true, "OK", some (.obj [("js", .obj [])])⟩
        = .error "Failed to get token from handshake" :=
  ⟨(c9_amended _).2.2.1 (.obj [("js", .obj [("token", .str "abc")])]) (.str "abc")
      rfl rfl rfl rfl rfl rfl,
   (c9_amended _).1 rfl,
   (c9_amended _).2.2.2.1 (.obj [("js", .obj [])]) rfl rfl rfl (Or.inr rfl)⟩

/-! ### C10: totality of entity parsing -/

/-- The channel produced for one non-nullish raw record, with each field
defaulted by the `||` chains of the map callback. -/
def defaultedChannel (channel : JsVal) : ChannelJ :=
  ⟨jsOr (getPropNN channel "id") (.str ""),
   jsOr (getPropNN channel "name") (.str "Unknown Channel"),
   jsOr (getPropNN channel "cmd") (.str ""),
   jsOr (getPropNN channel "logo") (.str ""),
   jsOr (getPropNN channel "number") (jsOr (getPropNN channel "id") (.str "")),
   .str "Live TV"⟩

/-- Every field of a defaulted channel is either its literal default or a
truthy raw value — never `undefined`. -/
def chanDefaulted (c : ChannelJ) : Prop :=
  (c.id = .str "" ∨ truthy c.id = true) ∧
    (c.name = .str "Unknown Channel" ∨ truthy c.name = true) ∧
    (c.cmd = .str "" ∨ truthy c.cmd = true) ∧
    (c.logo = .str "" ∨ truthy c.logo = true) ∧
    (c.number = .str "" ∨ truthy c.number = true) ∧
    c.group = .str "Live TV"

theorem nullish_cases (v : JsVal) (h : isNullish v = true) :
    v = .undefined ∨ v = .null := by
  cases v <;> simp_all [isNullish]

theorem jsOr_cases (a b : JsVal) : jsOr a b = b ∨ truthy (jsOr a b) = true := by
  by_cases h : truthy a = true
  · right
    simp [jsOr, h]
  · left
    simp [jsOr, h]

theorem mapM_chanOf (xs : List JsVal) (h : ∀ x ∈ xs, isNullish x = false) :
    chansOf xs = .ok (xs.map defaultedChannel) := by
  induction xs with
  | nil => rfl
  | cons x rest ih =>
    have hx : chanOf x = .ok (defaultedChannel x) := by
      simp [chanOf, h x (by simp), defaultedChannel]
    have hr := ih (fun y hy => h y (by simp [hy]))
    simp [chansOf, hx, hr]

/-- C10 counterexample: entity parsing is not total over arbitrary JSON
values — `parseChannels` applied to the JSON value `null` (a possible
`response.json()` result) throws a TypeError instead of returning the
empty list. -/
theorem c10_counterexample :
    parseChannels .null =
      .error "TypeError: cannot read properties of null or undefined (reading js)" := rfl

/-- C10 (amended): entity parsing is total over every non-nullish JSON
envelope whose `js.data` chain is nullish or an array of non-nullish
records: `parseChannels` (and the variant's `parseVODItems`) returns the
empty list when `js` or `js.data` is missing or null, maps each non-nullish
record with every output field defaulted (never undefined), and only a
nullish input value or a nullish record element makes it throw. -/
theorem c10_amended :
    (∀ d : JsVal, isNullish d = false →
      isNullish (getPropNN (getPropNN d "js") "data") = true →
      parseChannels d = .ok []) ∧
    (∀ (d : JsVal) (xs : List JsVal), isNullish d = false →
      getPropNN (getPropNN d "js") "data" = .arr xs →
      (∀ x ∈ xs, isNullish x = false) →
      parseChannels d = .ok (xs.map defaultedChannel)) ∧
    (∀ x : JsVal, chanDefaulted (defaultedChannel x)) ∧
    (∀ (raw : JsVal) (resolve : JsVal → Resp) (kind : Kind), isNullish raw = false →
      isNullish (getPropNN (getPropNN raw "js") "data") = true →
      parseVODItems raw resolve kind = .ok []) := by
  refine ⟨?_, ?_, ?_, ?_⟩
  · intro d hd hchain
    simp only [parseChannels, getProp, hd, Bool.false_eq_true, if_false]
    by_cases hjs : isNullish (getPropNN d "js") = true
    · simp [hjs]
    · rw [if_neg (by simp [hjs])]
      rcases nullish_cases _ hchain with hv | hv <;> rw [hv]
  · intro d xs hd hchain hxs
    have hjs : isNullish (getPropNN d "js") = false := by
      cases hj : getPropNN d "js" <;> simp_all [getPropNN, isNullish]
    simp only [parseChannels, getProp, hd, Bool.false_eq_true, if_false]
    rw [if_neg (by simp [hjs]), hchain]
    exact mapM_chanOf xs hxs
  · intro x
    refine ⟨jsOr_cases _ _, jsOr_cases _ _, jsOr_cases _ _, jsOr_cases _ _, ?_, rfl⟩
    rcases jsOr_cases (getPropNN x "number") (jsOr (getPropNN x "id") (.str "")) with h | h
    · rcases jsOr_cases (getPropNN x "id") (.str "") with h2 | h2
      · left
        show jsOr (getPropNN x "number") (jsOr (getPropNN x "id") (.str "")) = .str ""
        rw [h, h2]
      · right
        show truthy (jsOr (getPropNN x "number") (jsOr (getPropNN x "id") (.str ""))) = true
        rw [h, h2]
    · right
      exact h
  · intro raw resolve kind hr hchain
    simp only [parseVODItems, getProp, hr, Bool.false_eq_true, if_false]
    by_cases hjs : isNullish (getPropNN raw "js") = true
    · rcases nullish_cases _ hjs with hv | hv <;> (rw [hv]; rfl)
    · rw [if_neg (by simp [hjs])]
      rcases nullish_cases _ hchain with hv | hv <;> (rw [hv]; rfl)

/-- C10 witness: the amended theorem applied at concrete envelopes — an
envelope with no `js.data` and an envelope carrying one empty record. -/
theorem c10_witness :
    parseChannels (.obj [("js", .obj [])]) = .ok [] ∧
      parseChannels (.obj [("js", .obj [("data", .arr [.obj []])])])
        = .ok [defaultedChannel (.obj [])] :=
  ⟨c10_amended.1 (.obj [("js", .obj [])]) rfl rfl,
   c10_amended.2.1 (.obj [("js", .obj [("data", .arr [.obj []])])]) [.obj []]
      rfl rfl (by decide)⟩

/-! ### C1: the non-empty-cmd invariant -/

theorem truthy_of_not_not (b : Bool) (h : ¬((!b) = true)) : b = true := by
  revert h
  cases b <;> simp

theorem processItems_cmd (resolve : JsVal → Resp) (kind : Kind) (catName : String) :
    ∀ (items : List JsVal) (out : List VODItemJ),
    processItems resolve kind catName items = .ok out → ∀ it ∈ out, truthy it.cmd = true := by
  intro items
  induction items with
  | nil =>
    intro out h it hit
    simp only [processItems] at h
    injection h with h2
    subst h2
    simp at hit
  | cons x rest ih =>
    intro out h it hit
    simp only [processItems] at h
    cases hc : getProp x "cmd" with
    | error e =>
      simp only [hc] at h
      exact Except.noConfusion h
    | ok cmd =>
      simp only [hc] at h
      by_cases htc : (!truthy cmd) = true
      · rw [if_pos htc] at h
        exact ih out h it hit
      · rw [if_neg htc] at h
        cases hs : getStreamLink (resolve cmd) with
        | error e =>
          simp only [hs] at h
          exact Except.noConfusion h
        | ok streamUrl =>
          simp only [hs] at h
          by_cases hts : (!truthy streamUrl) = true
          · rw [if_pos hts] at h
            exact ih out h it hit
          · rw [if_neg hts] at h
            cases hr : processItems resolve kind catName rest with
            | error e =>
              simp only [hr] at h
              exact Except.noConfusion h
            | ok tail =>
              simp only [hr] at h
              injection h with h2
              subst h2
              rcases List.mem_cons.mp hit with hh | hh
              · subst hh
                exact truthy_of_not_not _ hts
              · exact ih tail hr it hh

theorem vodLoop_cmd (pages : Nat → Resp) (resolve : JsVal → Resp) (kind : Kind)
    (catName : String) :
    ∀ (fuel page : Nat) (items : List VODItemJ) (trace : List Nat),
    vodLoop pages resolve kind catName fuel page = .ok (items, trace) →
    ∀ it ∈ items, truthy it.cmd = true := by
  intro fuel
  induction fuel with
  | zero =>
    intro page items trace h
    simp [vodLoop] at h
  | succ n ih =>
    intro page items trace h it hit
    simp only [vodLoop] at h
    cases hf : fetchPageItems (pages page) with
    | error e =>
      simp only [hf] at h
      exact Except.noConfusion h
    | ok o =>
      simp only [hf] at h
      cases o with
      | none =>
        injection h with h2
        injection h2 with h3 h4
        subst h3
        simp at hit
      | some pitems =>
        cases hp : processItems resolve kind catName pitems with
        | error e =>
          simp only [hp] at h
          exact Except.noConfusion h
        | ok out =>
          simp only [hp] at h
          cases hrec : vodLoop pages resolve kind catName n (page + 1) with
          | error e =>
            simp only [hrec] at h
            exact Except.noConfusion h
          | ok pr =>
            obtain ⟨restOut, restTrace⟩ := pr
            simp only [hrec] at h
            injection h with h2
            injection h2 with h3 h4
            subst h3
            rcases List.mem_append.mp hit with hh | hh
            · exact processItems_cmd resolve kind catName pitems out hp it hh
            · exact ih (page + 1) restOut restTrace hrec it hh

theorem parseVODItemsRec_cmd (resolve : JsVal → Resp) (kind : Kind) :
    ∀ (items : List JsVal) (out : List VODItemJ),
    parseVODItemsRec resolve kind items = .ok out → ∀ it ∈ out, truthy it.cmd = true := by
  intro items
  induction items with
  | nil =>
    intro out h it hit
    simp only [parseVODItemsRec] at h
    injection h with h2
    subst h2
    simp at hit
  | cons x rest ih =>
    intro out h it hit
    simp only [parseVODItemsRec] at h
    cases hc : getProp x "cmd" with
    | error e =>
      simp only [hc] at h
      exact Except.noConfusion h
    | ok cmd =>
      simp only [hc] at h
      by_cases htc : (!truthy cmd) = true
      · rw [if_pos htc] at h
        exact ih out h it hit
      · rw [if_neg htc] at h
        cases hs : getStreamLink (resolve cmd) with
        | error e =>
          simp only [hs] at h
          exact Except.noConfusion h
        | ok streamUrl =>
          simp only [hs] at h
          by_cases hts : (!truthy streamUrl) = true
          · rw [if_pos hts] at h
            exact ih out h it hit
          · rw [if_neg hts] at h
            cases hr : parseVODItemsRec resolve kind rest with
            | error e =>
              simp only [hr] at h
              exact Except.noConfusion h
            | ok tail =>
              simp only [hr] at h
              injection h with h2
              subst h2
              rcases List.mem_cons.mp hit with hh | hh
              · subst hh
                exact truthy_of_not_not _ hts
              · exact ih tail hr it hh

theorem vodRawLoop_cmd (pages : String → Nat → Resp) (resolve : JsVal → Resp)
    (kind : Kind) (fuel : Nat) :
    ∀ (cats : List CategoryJ) (out : List VODItemJ),
    vodRawLoop pages resolve kind fuel cats = .ok out → ∀ it ∈ out, truthy it.cmd = true := by
  intro cats
  induction cats with
  | nil =>
    intro out h it hit
    simp only [vodRawLoop] at h
    injection h with h2
    subst h2
    simp at hit
  | cons cat rest ih =>
    intro out h it hit
    simp only [vodRawLoop] at h
    cases kind with
    | movies =>
      dsimp only at h
      cases hrun : getVODItems (pages (jsTemplate cat.id)) resolve .movies
          (jsTemplate cat.name) fuel with
      | error e =>
        simp only [hrun] at h
        exact Except.noConfusion h
      | ok pr =>
        obtain ⟨items, trace⟩ := pr
        simp only [hrun] at h
        cases hrest : vodRawLoop pages resolve .movies fuel rest with
        | error e =>
          simp only [hrest] at h
          exact Except.noConfusion h
        | ok restItems =>
          simp only [hrest] at h
          injection h with h2
          subst h2
          rcases List.mem_append.mp hit with hh | hh
          · exact vodLoop_cmd _ resolve .movies _ fuel 1 items trace hrun it hh
          · exact ih restItems hrest it hh
    | series =>
      dsimp only at h
      cases hrun : getSeriesEpisodes (pages (jsTemplate cat.id)) resolve
          (jsTemplate cat.name) fuel with
      | error e =>
        simp only [hrun] at h
        exact Except.noConfusion h
      | ok pr =>
        obtain ⟨items, trace⟩ := pr
        simp only [hrun] at h
        cases hrest : vodRawLoop pages resolve .series fuel rest with
        | error e =>
          simp only [hrest] at h
          exact Except.noConfusion h
        | ok restItems =>
          simp only [hrest] at h
          injection h with h2
          subst h2
          rcases List.mem_append.mp hit with hh | hh
          · exact vodLoop_cmd _ resolve .series _ fuel 1 items trace hrun it hh
          · exact ih restItems hrest it hh

/-- C1 counterexample: a raw channel record with no command string is not
excluded — `parseChannels` keeps it with `cmd` defaulted to `""`, and the
serializer emits it with an empty URL line (the third line of the split
output is empty). -/
theorem c1_counterexample :
    parseChannels (.obj [("js", .obj [("data", .arr [.obj []])])]) =
        .ok [⟨.str "", .str "Unknown Channel", .str "", .str "", .str "", .str "Live TV"⟩] ∧
      splitNl (generateM3U [⟨"", "Unknown Channel", "", "", "", "Live TV"⟩] [] []).data =
        ["#EXTM3U".data, "#EXTINF:-1 group-title=\"Live TV\",Unknown Channel".data, [], []] :=
  ⟨rfl, by decide⟩

/-- C1 (amended): the non-empty-resolved-cmd invariant holds for VOD items
but not for channels.  Every VOD item in the paginated enumeration's
output, in the variant parser's output, and in the aggregate handed to
storage has a truthy (non-empty) resolved `cmd` — records with a falsy raw
`cmd` or a falsy resolved link are dropped.  Channels are not filtered:
a channel record with no command string is kept with `cmd = ""` and
serialized with an empty URL line. -/
theorem c1_amended :
    (∀ (pages : Nat → Resp) (resolve : JsVal → Resp) (kind : Kind) (catName : String)
      (fuel : Nat) (items : List VODItemJ) (trace : List Nat),
      getVODItems pages resolve kind catName fuel = .ok (items, trace) →
      ∀ it ∈ items, truthy it.cmd = true) ∧
    (∀ (raw : JsVal) (resolve : JsVal → Resp) (kind : Kind) (items : List VODItemJ),
      parseVODItems raw resolve kind = .ok items →
      ∀ it ∈ items, truthy it.cmd = true) ∧
    (∀ (catResp : Resp) (pages : String → Nat → Resp) (resolve : JsVal → Resp)
      (kind : Kind) (fuel : Nat) (vd : VODData),
      getVODRaw catResp pages resolve kind fuel = .ok vd →
      ∀ it ∈ parseVOD vd, truthy it.cmd = true) := by
  refine ⟨?_, ?_, ?_⟩
  · intro pages resolve kind catName fuel items trace h
    exact vodLoop_cmd pages resolve kind catName fuel 1 items trace h
  · intro raw resolve kind items h it hit
    simp only [parseVODItems] at h
    cases hg : getProp raw "js" with
    | error e =>
      simp only [hg] at h
      exact Except.noConfusion h
    | ok js =>
      simp only [hg] at h
      cases hm : jsOr (if isNullish js = true then JsVal.undefined else getPropNN js "data")
          (.arr []) with
      | undefined => simp only [hm] at h; exact Except.noConfusion h
      | null => simp only [hm] at h; exact Except.noConfusion h
      | bool b => simp only [hm] at h; exact Except.noConfusion h
      | num n => simp only [hm] at h; exact Except.noConfusion h
      | str s => simp only [hm] at h; exact Except.noConfusion h
      | obj o => simp only [hm] at h; exact Except.noConfusion h
      | arr l =>
        simp only [hm] at h
        exact parseVODItemsRec_cmd resolve kind l items h it hit
  · intro catResp pages resolve kind fuel vd h it hit
    simp only [getVODRaw] at h
    cases hc : getVODCategories catResp with
    | error e =>
      simp only [hc] at h
      exact Except.noConfusion h
    | ok cats =>
      simp only [hc] at h
      cases hl : vodRawLoop pages resolve kind fuel cats with
      | error e =>
        simp only [hl] at h
        exact Except.noConfusion h
      | ok items =>
        simp only [hl] at h
        injection h with h2
        subst h2
        exact vodRawLoop_cmd pages resolve kind fuel cats items hl it hit

/-- C1 witness: the amended theorem applied to a concrete one-category,
one-item run whose resolution succeeds. -/
theorem c1_witness :
    truthy (VODItemJ.cmd ⟨.str "7", .str "Unknown", .str "http://s/1", .str "",
        .str ("Movies â€“ Cat")⟩) = true :=
  c1_amended.1
    (fun p => if p = 1
      then ⟨true, "OK", some (.obj [("js", .obj [("data",
        .arr [.obj [("id", .str "7"), ("cmd", .str "raw")]])])])⟩
      else ⟨true, "OK", some (.obj [("js", .obj [("data", .arr [])])])⟩)
    (fun _ => ⟨true, "OK", some (.obj [("js", .obj [("cmd", .str "http://s/1")])])⟩)
    .movies "Cat" 3
    [⟨.str "7", .str "Unknown", .str "http://s/1", .str "", .str ("Movies â€“ Cat")⟩]
    [1, 2] rfl
    ⟨.str "7", .str "Unknown", .str "http://s/1", .str "", .str ("Movies â€“ Cat")⟩
    (by simp)

/-! ### C4: pagination termination -/

/-- The items contributed by one successfully processed page (the
reference value against which the loop is compared). -/
def pageOut (pages : Nat → Resp) (resolve : JsVal → Resp) (kind : Kind)
    (catName : String) (i : Nat) : List VODItemJ :=
  match fetchPageItems (pages i) with
  | .ok (some its) =>
    match processItems resolve kind catName its with
    | .ok out => out
    | .error _ => []
  | _ => []

theorem vodLoop_run (pages : Nat → Resp) (resolve : JsVal → Resp) (kind : Kind)
    (catName : String) :
    ∀ (n page fuel : Nat), n + 1 ≤ fuel →
    (∀ i, page ≤ i → i < page + n → ∃ its out,
      fetchPageItems (pages i) = .ok (some its) ∧
      processItems resolve kind catName its = .ok out) →
    fetchPageItems (pages (page + n)) = .ok none →
    vodLoop pages resolve kind catName fuel page =
      .ok (((List.range' page n).map (pageOut pages resolve kind catName)).flatten,
        List.range' page (n + 1)) := by
  intro n
  induction n with
  | zero =>
    intro page fuel hfuel hgood hend
    cases fuel with
    | zero => omega
    | succ f =>
      rw [Nat.add_zero] at hend
      simp only [vodLoop, hend]
      rfl
  | succ n ih =>
    intro page fuel hfuel hgood hend
    cases fuel with
    | zero => omega
    | succ f =>
      obtain ⟨its, out, hf, hp⟩ := hgood page (by omega) (by omega)
      have hend2 : fetchPageItems (pages (page + 1 + n)) = .ok none := by
        have e1 : page + 1 + n = page + (n + 1) := by omega
        rw [e1]
        exact hend
      have hrec := ih (page + 1) f (by omega)
        (fun i h1 h2 => hgood i (by omega) (by omega)) hend2
      simp only [vodLoop, hf, hp, hrec]
      have hpo : pageOut pages resolve kind catName page = out := by
        simp only [pageOut, hf, hp]
      show Except.ok (out ++ _, page :: List.range' (page + 1) (n + 1)) = _
      rw [show List.range' page (n + 1) = page :: List.range' (page + 1) n from rfl]
      rw [show List.range' page (n + 1 + 1) = page :: List.range' (page + 1) (n + 1) from rfl]
      simp only [List.map_cons, List.flatten_cons, hpo]

/-- C4 counterexample: when the first page already returns zero items
(k = 1), the claim demands that exactly k − 1 = 0 pages be fetched, but
the loop requests page 1 (the request trace is `[1]`, of length 1). -/
theorem c4_counterexample :
    getVODItems (fun _ => ⟨true, "OK", some (.obj [("js", .obj [("data", .arr [])])])⟩)
        (fun _ => ⟨false, "", none⟩) .movies "Cat" 5 = .ok ([], [1]) ∧
      ([1] : List Nat).length ≠ 1 - 1 :=
  ⟨rfl, by decide⟩

/-- C4 (amended): pages are requested with successive 1-indexed numbers.
If page k is the first page that ends the run (zero items, or a non-2xx
response, which `fetchPageItems` treats as end-of-data rather than an
error), then pages 1..k are requested — the k-th request is the one that
observes end-of-data — and the processed items of pages 1..k−1 are
concatenated in order, regardless of the content of any later page. -/
theorem c4_amended :
    (∀ (pages : Nat → Resp) (resolve : JsVal → Resp) (kind : Kind) (catName : String)
      (k fuel : Nat), 1 ≤ k → k ≤ fuel →
      (∀ i, 1 ≤ i → i < k → ∃ its out,
        fetchPageItems (pages i) = .ok (some its) ∧
        processItems resolve kind catName its = .ok out) →
      fetchPageItems (pages k) = .ok none →
      getVODItems pages resolve kind catName fuel =
        .ok (((List.range' 1 (k - 1)).map (pageOut pages resolve kind catName)).flatten,
          List.range' 1 k)) ∧
    (∀ r : Resp, r.ok = false → fetchPageItems r = .ok none) := by
  constructor
  · intro pages resolve kind catName k fuel hk hfuel hgood hend
    have hrun := vodLoop_run pages resolve kind catName (k - 1) 1 fuel (by omega)
      (fun i h1 h2 => hgood i h1 (by omega))
      (by rw [show 1 + (k - 1) = k from by omega]; exact hend)
    rw [getVODItems, hrun, show k - 1 + 1 = k from by omega]
  · intro r h
    simp [fetchPageItems, h]

/-- C4 witness: the amended theorem applied to a concrete run where page 1
holds one resolvable item and page 2 is empty (k = 2): both pages are
requested and the single processed item is returned. -/
theorem c4_witness :
    getVODItems
      (fun p => if p = 1
        then ⟨true, "OK", some (.obj [("js", .obj [("data",
          .arr [.obj [("cmd", .str "raw")]])])])⟩
        else ⟨true, "OK", some (.obj [("js", .obj [("data", .arr [])])])⟩)
      (fun _ => ⟨true, "OK", some (.obj [("js", .obj [("cmd", .str "http://s/1")])])⟩)
      .movies "Cat" 4 =
      .ok ([⟨.str "", .str "Unknown", .str "http://s/1", .str "",
        .str ("Movies â€“ Cat")⟩], [1, 2]) :=
  c4_amended.1
    (fun p => if p = 1
      then ⟨true, "OK", some (.obj [("js", .obj [("data",
        .arr [.obj [("cmd", .str "raw")]])])])⟩
      else ⟨true, "OK", some (.obj [("js", .obj [("data", .arr [])])])⟩)
    (fun _ => ⟨true, "OK", some (.obj [("js", .obj [("cmd", .str "http://s/1")])])⟩)
    .movies "Cat" 2 4 (by omega) (by omega)
    (by
      intro i h1 h2
      have hi : i = 1 := by omega
      subst hi
      exact ⟨_, _, rfl, rfl⟩)
    rfl

/-! ### C3: catalog-level atomicity -/

/-- C3 counterexample: a non-2xx status on both VOD category-listing calls
does not abort the conversion.  With a successful handshake and channel
listing, the conversion completes with success, zero movies and series,
and the channel data intact — no top-level failure is raised. -/
theorem c3_counterexample :
    convert "http://example.com/c" "00:1a:79:12:34:56"
      ⟨true, "OK", some (.obj [("js", .obj [("token", .str "abc")])])⟩
      ⟨true, "OK", some (.obj [("js", .obj [("data",
        .arr [.obj [("id", .str "1"), ("name", .str "News"),
          ("cmd", .str "ffmpeg http://x/1")]])])])⟩
      (fun _ => ⟨false, "Internal Server Error", none⟩)
      (fun _ _ _ => ⟨false, "", none⟩)
      (fun _ _ => ⟨false, "", none⟩) 3 =
      .ok ⟨[⟨.str "1", .str "News", .str "ffmpeg http://x/1", .str "", .str "1",
        .str "Live TV"⟩], [], [], 1, 0, 0, 1⟩ := rfl

/-- C3 (amended): the conversion is all-or-nothing for the handshake and
the channel listing — a non-2xx status or malformed body there aborts the
whole conversion with a descriptive message naming the step — and a
malformed (non-JSON) body on a 2xx VOD category-listing response also
aborts; but a non-2xx status on a VOD/series category-listing call does
not abort: it yields an empty category list and the conversion proceeds,
producing a result with zero items of that kind. -/
theorem c3_amended :
    (∀ (pu ma : String) (hs ch : Resp) (cat : Kind → Resp)
      (pages : Kind → String → Nat → Resp) (res : Kind → JsVal → Resp) (fuel : Nat),
      hs.ok = false →
      convert pu ma hs ch cat pages res fuel =
        .error ("Handshake failed: " ++ hs.statusText)) ∧
    (∀ (pu ma : String) (hs ch : Resp) (cat : Kind → Resp)
      (pages : Kind → String → Nat → Resp) (res : Kind → JsVal → Resp) (fuel : Nat)
      (tok : JsVal),
      handshake hs = .ok tok → ch.ok = false →
      convert pu ma hs ch cat pages res fuel =
        .error ("Failed to get channels: " ++ ch.statusText)) ∧
    (∀ (pu ma : String) (hs ch : Resp) (cat : Kind → Resp)
      (pages : Kind → String → Nat → Resp) (res : Kind → JsVal → Resp) (fuel : Nat)
      (tok : JsVal),
      handshake hs = .ok tok → ch.ok = true → ch.body = none →
      convert pu ma hs ch cat pages res fuel = .error jsonParseErr) ∧
    (∀ (pu ma : String) (hs ch : Resp) (cat : Kind → Resp)
      (pages : Kind → String → Nat → Resp) (res : Kind → JsVal → Resp) (fuel : Nat)
      (tok d : JsVal),
      handshake hs = .ok tok → getChannelsRaw ch = .ok d →
      (cat .movies).ok = true → (cat .movies).body = none →
      convert pu ma hs ch cat pages res fuel = .error jsonParseErr) ∧
    (∀ (pu ma : String) (hs ch : Resp) (cat : Kind → Resp)
      (pages : Kind → String → Nat → Resp) (res : Kind → JsVal → Resp) (fuel : Nat)
      (tok d : JsVal) (cs : List ChannelJ),
      handshake hs = .ok tok → getChannelsRaw ch = .ok d → parseChannels d = .ok cs →
      (cat .movies).ok = false → (cat .series).ok = false →
      convert pu ma hs ch cat pages res fuel =
        .ok ⟨cs, [], [], cs.length, 0, 0, cs.length + 0 + 0⟩) := by
  refine ⟨?_, ?_, ?_, ?_, ?_⟩
  · intro pu ma hs ch cat pages res fuel h
    have hh : handshake hs = .error ("Handshake failed: " ++ hs.statusText) := by
      simp [handshake, h]
    simp only [convert, hh]
  · intro pu ma hs ch cat pages res fuel tok hh h
    have hch : getChannelsRaw ch = .error ("Failed to get channels: " ++ ch.statusText) := by
      simp [getChannelsRaw, h]
    simp only [convert, hh, hch]
  · intro pu ma hs ch cat pages res fuel tok hh hok hbody
    have hch : getChannelsRaw ch = .error jsonParseErr := by
      simp [getChannelsRaw, hok, hbody]
    simp only [convert, hh, hch]
  · intro pu ma hs ch cat pages res fuel tok d hh hch hok hbody
    have hcat : getVODCategories (cat .movies) = .error jsonParseErr := by
      simp [getVODCategories, hok, hbody]
    have hvr : getVODRaw (cat .movies) (pages .movies) (res .movies) .movies fuel =
        .error jsonParseErr := by
      simp only [getVODRaw, hcat]
    simp only [convert, hh, hch, hvr]
  · intro pu ma hs ch cat pages res fuel tok d cs hh hch hcs hm hsr
    have hcatm : getVODCategories (cat .movies) = .ok [] := by
      simp [getVODCategories, hm]
    have hcats : getVODCategories (cat .series) = .ok [] := by
      simp [getVODCategories, hsr]
    have hvrm : getVODRaw (cat .movies) (pages .movies) (res .movies) .movies fuel =
        .ok ⟨[], []⟩ := by
      simp only [getVODRaw, hcatm]
      rfl
    have hvrs : getVODRaw (cat .series) (pages .series) (res .series) .series fuel =
        .ok ⟨[], []⟩ := by
      simp only [getVODRaw, hcats]
      rfl
    simp only [convert, hh, hch, hvrm, hvrs, hcs]
    rfl

/-- C3 witness: the amended theorem's non-aborting clause applied at
concrete oracles with an empty channel list and failing category calls. -/
theorem c3_witness :
    convert "u" "m"
      ⟨true, "OK", some (.obj [("js", .obj [("token", .str "t")])])⟩
      ⟨true, "OK", some (.obj [("js", .obj [("data", .arr [])])])⟩
      (fun _ => ⟨false, "Bad Gateway", none⟩)
      (fun _ _ _ => ⟨false, "", none⟩)
      (fun _ _ => ⟨false, "", none⟩) 2 =
      .ok ⟨[], [], [], 0, 0, 0, 0⟩ :=
  c3_amended.2.2.2.2 "u" "m"
    ⟨true, "OK", some (.obj [("js", .obj [("token", .str "t")])])⟩
    ⟨true, "OK", some (.obj [("js", .obj [("data", .arr [])])])⟩
    (fun _ => ⟨false, "Bad Gateway", none⟩)
    (fun _ _ _ => ⟨false, "", none⟩)
    (fun _ _ => ⟨false, "", none⟩) 2
    (.str "t") (.obj [("js", .obj [("data", .arr [])])]) []
    rfl rfl rfl rfl rfl

/-! ### C7: playlist line structure -/

theorem noNlS_append (a b : String) (ha : noNlS a) (hb : noNlS b) : noNlS (a ++ b) := by
  simp only [noNlS, String.data_append, List.mem_append]
  rintro (h | h)
  · exact ha h
  · exact hb h

theorem noNlS_ite (c : Prop) [Decidable c] (a b : String) (ha : noNlS a) (hb : noNlS b) :
    noNlS (if c then a else b) := by
  split
  · exact ha
  · exact hb

theorem noNlS_drop (s : String) (n : Nat) (h : noNlS s) : noNlS (jsDrop s n) := by
  intro hm
  exact h (List.mem_of_mem_drop hm)

theorem chanLine_noNl (c : Channel) (h : chanNoNl c) : noNlS (chanLine c) := by
  obtain ⟨h1, h2, h3, h4, h5⟩ := h
  unfold chanLine
  refine noNlS_append _ _ (noNlS_append _ _ (noNlS_append _ _ (noNlS_append _ _
    (noNlS_append _ _ (by decide) ?_) ?_) ?_) (by decide)) h2
  · exact noNlS_ite _ _ _ (by decide)
      (noNlS_append _ _ (noNlS_append _ _ (by decide) h1) (by decide))
  · exact noNlS_ite _ _ _ (by decide)
      (noNlS_append _ _ (noNlS_append _ _ (by decide) h4) (by decide))
  · exact noNlS_ite _ _ _ (by decide)
      (noNlS_append _ _ (noNlS_append _ _ (by decide) h5) (by decide))

theorem vodLine_noNl (v : VODItem) (h : vodNoNl v) : noNlS (vodLine v) := by
  obtain ⟨h1, h2, h3, h4, h5⟩ := h
  unfold vodLine
  refine noNlS_append _ _ (noNlS_append _ _ (noNlS_append _ _ (noNlS_append _ _
    (noNlS_append _ _ (by decide) ?_) ?_) ?_) (by decide)) h2
  · exact noNlS_ite _ _ _ (by decide)
      (noNlS_append _ _ (noNlS_append _ _ (by decide) h1) (by decide))
  · exact noNlS_ite _ _ _ (by decide)
      (noNlS_append _ _ (noNlS_append _ _ (by decide) h4) (by decide))
  · exact noNlS_ite _ _ _ (by decide)
      (noNlS_append _ _ (noNlS_append _ _ (by decide) h5) (by decide))

theorem cleanStreamUrl_noNl (s : String) (h : noNlS s) : noNlS (cleanStreamUrl s) := by
  unfold cleanStreamUrl stripEngineToken
  split
  · exact h
  · split
    · exact h
    · split
      · exact noNlS_drop _ _ h
      · split
        · exact noNlS_drop _ _ h
        · split
          · exact noNlS_drop _ _ h
          · exact h

theorem foldl_entry_data {α : Type} (line url : α → String) (l : List α) (init : String) :
    (l.foldl (fun acc x => acc ++ line x ++ "\n" ++ url x ++ "\n") init).data =
      init.data ++ l.flatMap (fun x => (line x).data ++ '\n' :: ((url x).data ++ ['\n'])) := by
  induction l generalizing init with
  | nil => simp
  | cons x rest ih =>
    rw [List.foldl_cons, ih]
    simp [String.data_append]

theorem generateM3U_data (channels : List Channel) (movies series : List VODItem) :
    (generateM3U channels movies series).data =
      "#EXTM3U".data ++ '\n' ::
        (channels.flatMap (fun c => (chanLine c).data ++ '\n' :: ((cleanStreamUrl c.cmd).data ++ ['\n'])) ++
         (movies.flatMap (fun v => (vodLine v).data ++ '\n' :: ((cleanStreamUrl v.cmd).data ++ ['\n'])) ++
          series.flatMap (fun v => (vodLine v).data ++ '\n' :: ((cleanStreamUrl v.cmd).data ++ ['\n'])))) := by
  unfold generateM3U
  rw [foldl_entry_data (fun v => vodLine v) (fun v => cleanStreamUrl v.cmd)]
  rw [foldl_entry_data (fun v => vodLine v) (fun v => cleanStreamUrl v.cmd)]
  rw [foldl_entry_data (fun c => chanLine c) (fun c => cleanStreamUrl c.cmd)]
  simp [List.append_assoc]

theorem splitNl_append_nl (a : List Char) (r : List Char) (h : '\n' ∉ a) :
    splitNl (a ++ '\n' :: r) = a :: splitNl r := by
  induction a with
  | nil => simp [splitNl]
  | cons c a ih =>
    have hc : ¬(c = '\n') := fun he => h (by simp [he])
    have hih := ih (fun hm => h (by simp [hm]))
    simp only [List.cons_append, splitNl, if_neg hc]
    have hih2 : splitNl (a.append ('\n' :: r)) = a :: splitNl r := hih
    rw [hih2]

theorem splitNl_entries {α : Type} (line url : α → List Char) (l : List α) (r : List Char)
    (h : ∀ x ∈ l, '\n' ∉ line x ∧ '\n' ∉ url x) :
    splitNl (l.flatMap (fun x => line x ++ '\n' :: (url x ++ ['\n'])) ++ r) =
      l.flatMap (fun x => [line x, url x]) ++ splitNl r := by
  induction l with
  | nil => simp
  | cons x rest ih =>
    have hx := h x (by simp)
    have hih := ih (fun y hy => h y (by simp [hy]))
    rw [List.flatMap_cons, List.flatMap_cons]
    simp only [List.append_assoc, List.cons_append, List.singleton_append]
    rw [splitNl_append_nl _ _ hx.1, splitNl_append_nl _ _ hx.2]
    simp only [List.nil_append]
    rw [hih]

theorem filter_pairs_length {α : Type} (p : List Char → Bool) (line url : α → List Char)
    (l : List α) (hline : ∀ x ∈ l, p (line x) = true) (hurl : ∀ x ∈ l, p (url x) = false) :
    ((l.flatMap (fun x => [line x, url x])).filter p).length = l.length := by
  induction l with
  | nil => simp
  | cons x rest ih =>
    rw [List.flatMap_cons, List.filter_append]
    simp only [List.length_append, ih (fun y hy => hline y (by simp [hy]))
      (fun y hy => hurl y (by simp [hy]))]
    simp [List.filter_cons, hline x (by simp), hurl x (by simp)]
    omega

theorem extinf_prefix_of_line (rest : List Char) :
    ("#EXTINF".data).isPrefixOf ("#EXTINF:-1".data ++ rest) = true := by
  show ("#EXTINF".data).isPrefixOf (("#EXTINF".data ++ ":-1".data) ++ rest) = true
  rw [List.append_assoc]
  exact List.isPrefixOf_iff_prefix.mpr (List.prefix_append _ _)

/-- C7 counterexample: the serializer does not escape newlines, so a
channel name containing a newline and an `#EXTINF` fragment produces two
`#EXTINF` lines for a single entity — the line count does not equal the
entity count for every input triple. -/
theorem c7_counterexample :
    countExtinf (generateM3U [⟨"1", "A\n#EXTINF:-1,B", "http://x/1", "", "", "Live TV"⟩]
      [] []) = 2 ∧ (2 : Nat) ≠ 1 :=
  ⟨by decide, by decide⟩

/-- C7 (amended): for every triple of channel, movie and series lists whose
entity fields contain no newline character, the serialized playlist splits
into the literal `#EXTM3U` header line followed, for each entity — all
channels first, then all movies, then all series — by exactly one
`#EXTINF:-1` line (attributes in the fixed order id, logo, group, each
present exactly when the field is non-empty, then a comma and the name)
immediately followed by exactly one URL line, and a final empty line from
the trailing newline.  When additionally no cleaned stream URL begins with
`#EXTINF`, the number of lines beginning with `#EXTINF` equals the number
of input entities. -/
theorem c7_amended (channels : List Channel) (movies series : List VODItem)
    (hc : ∀ c ∈ channels, chanNoNl c) (hm : ∀ v ∈ movies, vodNoNl v)
    (hv : ∀ v ∈ series, vodNoNl v) :
    splitNl (generateM3U channels movies series).data =
      "#EXTM3U".data ::
        (channels.flatMap (fun c => [(chanLine c).data, (cleanStreamUrl c.cmd).data]) ++
         (movies.flatMap (fun v => [(vodLine v).data, (cleanStreamUrl v.cmd).data]) ++
          (series.flatMap (fun v => [(vodLine v).data, (cleanStreamUrl v.cmd).data]) ++ [[]]))) ∧
    (∀ c : Channel, ("#EXTINF:-1".data).isPrefixOf (chanLine c).data = true) ∧
    (∀ v : VODItem, ("#EXTINF:-1".data).isPrefixOf (vodLine v).data = true) ∧
    ((∀ c ∈ channels, ("#EXTINF".data).isPrefixOf (cleanStreamUrl c.cmd).data = false) →
      (∀ v ∈ movies, ("#EXTINF".data).isPrefixOf (cleanStreamUrl v.cmd).data = false) →
      (∀ v ∈ series, ("#EXTINF".data).isPrefixOf (cleanStreamUrl v.cmd).data = false) →
      countExtinf (generateM3U channels movies series) =
        channels.length + movies.length + series.length) := by
  have hstruct : splitNl (generateM3U channels movies series).data =
      "#EXTM3U".data ::
        (channels.flatMap (fun c => [(chanLine c).data, (cleanStreamUrl c.cmd).data]) ++
         (movies.flatMap (fun v => [(vodLine v).data, (cleanStreamUrl v.cmd).data]) ++
          (series.flatMap (fun v => [(vodLine v).data, (cleanStreamUrl v.cmd).data]) ++ [[]]))) := by
    rw [generateM3U_data]
    rw [splitNl_append_nl _ _ (by decide)]
    congr 1
    rw [splitNl_entries (fun c => (chanLine c).data) (fun c => (cleanStreamUrl c.cmd).data)
      channels _ (fun c hcc => ⟨chanLine_noNl c (hc c hcc),
        cleanStreamUrl_noNl _ (hc c hcc).2.2.1⟩)]
    congr 1
    rw [splitNl_entries (fun v => (vodLine v).data) (fun v => (cleanStreamUrl v.cmd).data)
      movies _ (fun v hvv => ⟨vodLine_noNl v (hm v hvv),
        cleanStreamUrl_noNl _ (hm v hvv).2.2.1⟩)]
    congr 1
    rw [show (series.flatMap fun v => (vodLine v).data ++ '\n' ::
        ((cleanStreamUrl v.cmd).data ++ ['\n'])) =
      (series.flatMap fun v => (vodLine v).data ++ '\n' ::
        ((cleanStreamUrl v.cmd).data ++ ['\n'])) ++ [] from (List.append_nil _).symm]
    rw [splitNl_entries (fun v => (vodLine v).data) (fun v => (cleanStreamUrl v.cmd).data)
      series [] (fun v hvv => ⟨vodLine_noNl v (hv v hvv),
        cleanStreamUrl_noNl _ (hv v hvv).2.2.1⟩)]
    rfl
  have hlinePrefixC : ∀ c : Channel, ("#EXTINF:-1".data).isPrefixOf (chanLine c).data = true := by
    intro c
    simp only [chanLine, String.data_append]
    exact List.isPrefixOf_iff_prefix.mpr (List.prefix_append _ _)
  have hlinePrefixV : ∀ v : VODItem, ("#EXTINF:-1".data).isPrefixOf (vodLine v).data = true := by
    intro v
    simp only [vodLine, String.data_append]
    exact List.isPrefixOf_iff_prefix.mpr (List.prefix_append _ _)
  refine ⟨hstruct, hlinePrefixC, hlinePrefixV, ?_⟩
  intro hu1 hu2 hu3
  have hlineC : ∀ c : Channel, ("#EXTINF".data).isPrefixOf (chanLine c).data = true := by
    intro c
    simp only [chanLine, String.data_append]
    exact extinf_prefix_of_line _
  have hlineV : ∀ v : VODItem, ("#EXTINF".data).isPrefixOf (vodLine v).data = true := by
    intro v
    simp only [vodLine, String.data_append]
    exact extinf_prefix_of_line _
  rw [countExtinf, hstruct]
  rw [List.filter_cons_of_neg (by decide)]
  rw [List.filter_append, List.filter_append, List.filter_append]
  rw [List.length_append, List.length_append, List.length_append]
  rw [filter_pairs_length _ _ _ channels (fun c _ => hlineC c) hu1]
  rw [filter_pairs_length _ _ _ movies (fun v _ => hlineV v) hu2]
  rw [filter_pairs_length _ _ _ series (fun v _ => hlineV v) hu3]
  rw [show (List.filter (fun l => ("#EXTINF".data).isPrefixOf l) [([] : List Char)]) = []
    from by decide]
  simp only [List.length_nil, Nat.add_zero]
  omega

/-- C7 witness: the amended count applied to the spec's example channel —
one entity, one `#EXTINF` line. -/
theorem c7_witness :
    countExtinf (generateM3U [⟨"1", "News", "ffmpeg http://x/1", "", "", "Live TV"⟩] [] []) = 1 :=
  (c7_amended [⟨"1", "News", "ffmpeg http://x/1", "", "", "Live TV"⟩] [] []
    (by
      intro c hcc
      simp only [List.mem_singleton] at hcc
      subst hcc
      exact ⟨by decide, by decide, by decide, by decide, by decide⟩)
    (by intro v hvv; simp at hvv)
    (by intro v hvv; simp at hvv)).2.2.2
    (by
      intro c hcc
      simp only [List.mem_singleton] at hcc
      subst hcc
      decide)
    (by intro v hvv; simp at hvv)
    (by intro v hvv; simp at hvv)
